import Mathlib

set_option autoImplicit false

/-! Service pool, service manager, session manager and NAT proxy of the provider node.

Shallow embedding of `core/service/pool.go`, `core/service/manager.go`,
`session/manager.go` and `nat/traversal/nat_proxy.go`.  Mutable state is passed
explicitly in a `World` record; every call that leaves the package (a collaborator's
method, a factory, a channel operation) is appended to the world's `trace`, and its
result is read from an oracle that may depend on the whole history so far.  Goroutines
started with `go` are recorded in `tasks` and take no step inside the call that spawns
them; their bodies are separate step functions.  Logging calls are not part of the
model, and neither are the mutexes: every exported call holds its lock from entry to
return, so it is modelled as running to completion on the state it finds.
-/

namespace node

/-! ## Go values shared by the packages -/

/-- Go error value as built by `errors.New` or `fmt.Errorf`; it is identified by its message. -/
structure GoError where
  text : String
deriving DecidableEq, Repr

/-- Go `error` interface value; `none` is `nil`. -/
abbrev error := Option GoError

/-- Go `errors.New`. -/
def errorsNew (text : String) : GoError := ⟨text⟩

/-- Identity of a peer, `identity.Identity`: a struct around the address. -/
structure Identity where
  Address : String
deriving DecidableEq, Repr

/-- Proposal `market.ServiceProposal`: the fields the two managers read, the rest as a payload. -/
structure ServiceProposal where
  ID : Int
  ProviderID : String
  payload : String
deriving DecidableEq, Repr

/-- Lookup `m[key]` in a Go map kept as an association list; `none` is the `!ok` result. -/
def mapGet {κ ν : Type} [DecidableEq κ] : List (κ × ν) → κ → Option ν
  | [], _ => none
  | (k, v) :: rest, key => if k = key then some v else mapGet rest key

/-- Go `delete(m, key)`. -/
def mapDelete {κ ν : Type} [DecidableEq κ] (m : List (κ × ν)) (key : κ) : List (κ × ν) :=
  m.filter (fun e => decide (e.1 ≠ key))

/-- Go `m[key] = v`: inserts, or overwrites the entry of `key`. -/
def mapSet {κ ν : Type} [DecidableEq κ] (m : List (κ × ν)) (key : κ) (v : ν) : List (κ × ν) :=
  mapDelete m key ++ [(key, v)]

/-- Go `strings.Join`. -/
def stringsJoin : List String → String → String
  | [], _ => ""
  | [a], _ => a
  | a :: b :: rest, sep => a ++ sep ++ stringsJoin (b :: rest) sep

/-- Substitution of one string argument for the first `%s` or `%v` verb of a format. -/
def sprintfChars : List Char → List Char → List Char
  | [], _ => []
  | [c], _ => [c]
  | c :: d :: rest, arg =>
    if c = '%' ∧ (d = 's' ∨ d = 'v') then arg ++ rest
    else c :: sprintfChars (d :: rest) arg

/-- Go `fmt.Sprintf(format, arg)` for a format with one `%s`/`%v` verb and a string argument. -/
def Sprintf (format arg : String) : String :=
  String.mk (sprintfChars format.data arg.data)

/-- The text `msg` occurs inside `text`. -/
def textContains (text msg : String) : Prop := msg.data <:+: text.data

instance (text msg : String) : Decidable (textContains text msg) := by
  unfold textContains; infer_instance

/-- Modelled from the spec: `utils.ErrorCollection`, whose source is not among the files at
hand.  It collects the errors of several independent teardown steps into one aggregate value. -/
structure ErrorCollection where
  errs : List GoError
deriving DecidableEq, Repr

/-- Modelled from the spec: `ErrorCollection.Add` keeps every error that occurred; a `nil`
result is no error and is not collected. -/
def ErrorCollection.Add (ec : ErrorCollection) (err : error) : ErrorCollection :=
  match err with
  | some e => ⟨ec.errs ++ [e]⟩
  | none => ec

/-- Modelled from the spec: `ErrorCollection.Errorf(format, delimiter)` is `nil` if no error
occurred, otherwise one error whose text is `format` applied to the collected messages joined
by `delimiter`. -/
def ErrorCollection.Errorf (ec : ErrorCollection) (format delimiter : String) : error :=
  if ec.errs.isEmpty then none
  else some ⟨Sprintf format (stringsJoin (ec.errs.map (fun e => e.text)) delimiter)⟩

/-! ## Package `service` -/

namespace service

/-- ID represents the unique identifier of a running service. -/
abbrev ID := String

/-- Modelled from the spec: the lifecycle `State` of an instance, declared outside the files
at hand, with its three values. -/
inductive State where
  | Starting
  | Running
  | NotRunning
deriving DecidableEq, Repr

/-- Start options of a service, kept as a payload. -/
structure Options where
  raw : String
deriving DecidableEq, Repr

/-- Handle of a value behind the `Service`/`RunnableService` interface. -/
structure RunnableService where
  ref : Nat
deriving DecidableEq, Repr

/-- Handle of a value behind `communication.DialogWaiter`. -/
structure DialogWaiter where
  ref : Nat
deriving DecidableEq, Repr

/-- Handle of a value behind the `Discovery` interface. -/
structure Discovery where
  ref : Nat
deriving DecidableEq, Repr

/-- Handle of a `communication.DialogHandler`. -/
structure DialogHandler where
  ref : Nat
deriving DecidableEq, Repr

/-- Contact returned by `DialogWaiter.Start`. -/
structure Contact where
  raw : String
deriving DecidableEq, Repr

/-- Instance represents a run service.  The three interface fields can be `nil`. -/
structure Instance where
  id : ID
  state : State
  options : Options
  service : Option RunnableService
  proposal : ServiceProposal
  dialogWaiter : Option DialogWaiter
  discovery : Option Discovery
deriving DecidableEq, Repr

/-- Calls that leave the package, in the order they were made.  The two `Stop` calls that
return an error carry what they returned. -/
inductive Event where
  | createService (factory : Nat) (options : Options)
  | dialogWaiterFactory (providerID : Identity) (serviceType : String)
  | dialogWaiterStart (w : DialogWaiter)
  | uuidNewV4
  | dialogHandlerFactory (proposal : ServiceProposal) (service : RunnableService) (id : String)
  | serveDialogs (w : DialogWaiter) (h : DialogHandler)
  | discoveryFactory
  | discoveryStart (d : Discovery) (ownIdentity : Identity) (proposal : ServiceProposal)
  | discoveryStop (d : Discovery)
  | dialogWaiterStop (w : DialogWaiter) (result : error)
  | serviceStop (s : RunnableService) (result : error)
  | publish (topic : String) (inst : Instance)
  | serve (s : RunnableService) (providerID : Identity)
  | discoveryWait (d : Discovery)
deriving DecidableEq, Repr

/-- The error a recorded call returned, if it returned one. -/
def Event.failure : Event → error
  | .dialogWaiterStop _ r => r
  | .serviceStop _ r => r
  | _ => none

/-- Goroutine started by `Manager.Start`, with the variables its closure captures. -/
structure Task where
  inst : Instance
  providerID : Identity
  service : RunnableService
  discovery : Discovery
deriving DecidableEq, Repr

/-- Pool is responsible for supervising running instances. -/
structure Pool where
  instances : List (ID × Instance)
deriving DecidableEq, Repr

/-- NewPool returns an empty service pool. -/
def NewPool : Pool := ⟨[]⟩

/-- Mutable state seen by the package: the manager's pool, the calls made so far and the
goroutines spawned so far. -/
structure World where
  servicePool : Pool
  trace : List Event
  tasks : List Task
deriving DecidableEq, Repr

/-- Record one outgoing call. -/
def World.emit (w : World) (e : Event) : World :=
  { w with trace := w.trace ++ [e] }

/-- Value of the external `uuid` library: sixteen bytes. -/
structure UUID where
  bytes : List Nat
deriving DecidableEq, Repr

/-- Two lower-case hexadecimal digits of one byte. -/
def hexByte (b : Nat) : List Char :=
  [Nat.digitChar (b / 16 % 16), Nat.digitChar (b % 16)]

/-- Hexadecimal digits of a run of bytes. -/
def hexBytes (bs : List Nat) : List Char :=
  bs.flatMap hexByte

/-- Canonical text of a UUID as the external library prints it:
`xxxxxxxx-xxxx-xxxx-xxxx-xxxxxxxxxxxx`. -/
def UUID.String (u : UUID) : String :=
  String.mk (hexBytes (u.bytes.take 4) ++ '-' :: hexBytes ((u.bytes.drop 4).take 2)
    ++ '-' :: hexBytes ((u.bytes.drop 6).take 2) ++ '-' :: hexBytes ((u.bytes.drop 8).take 2)
    ++ '-' :: hexBytes ((u.bytes.drop 10).take 6))

/-- Modelled from the spec: the service `Registry`, whose source is not among the files at
hand: a table from service type to the factory that creates the service and its proposal. -/
structure Registry where
  factories : List (String × Nat)
deriving DecidableEq, Repr

/-- The collaborators injected into the manager and the behaviour behind their interfaces;
each answer may depend on the history of calls. -/
structure Env where
  serviceRegistry : Registry
  createService : List Event → Nat → Options → Except GoError (RunnableService × ServiceProposal)
  dialogWaiterFactory : List Event → Identity → String → Except GoError DialogWaiter
  dialogWaiterStart : List Event → DialogWaiter → Except GoError Contact
  setProviderContact : ServiceProposal → Identity → Contact → ServiceProposal
  uuidNewV4 : List Event → Except GoError UUID
  dialogHandlerFactory : List Event → ServiceProposal → RunnableService → String → DialogHandler
  serveDialogs : List Event → DialogWaiter → DialogHandler → error
  discoveryFactory : List Event → Discovery
  dialogWaiterStop : List Event → DialogWaiter → error
  serviceStop : List Event → RunnableService → error
  serve : List Event → RunnableService → Identity → error

/-- Add registers a service to the running instances pool. -/
def Pool.Add (w : World) (inst : Instance) : World :=
  let id := inst.id
  { w with servicePool := ⟨mapSet w.servicePool.instances id inst⟩ }

/-- Unexported `del`: `delete(p.instances, id)`. -/
def Pool.del (w : World) (id : ID) : World :=
  { w with servicePool := ⟨mapDelete w.servicePool.instances id⟩ }

/-- Del removes a service from the running instances pool. -/
def Pool.Del (w : World) (id : ID) : World :=
  Pool.del w id

/-- ErrNoSuchInstance represents the error when we are stopping an instance that does not exist. -/
def ErrNoSuchInstance : GoError := errorsNew "no such instance"

/-- Unexported `stop`: kills all sub-resources of the instance, then removes it. -/
def Pool.stop (env : Env) (w : World) (id : ID) : error × World :=
  match mapGet w.servicePool.instances id with
  | none => (some ErrNoSuchInstance, w)
  | some inst =>
    let errStop : ErrorCollection := ⟨[]⟩
    let w1 : World :=
      match inst.discovery with
      | some d => w.emit (.discoveryStop d)
      | none => w
    let s2 : ErrorCollection × World :=
      match inst.dialogWaiter with
      | some dw =>
        let r := env.dialogWaiterStop w1.trace dw
        (errStop.Add r, w1.emit (.dialogWaiterStop dw r))
      | none => (errStop, w1)
    let s3 : ErrorCollection × World :=
      match inst.service with
      | some sv =>
        let r := env.serviceStop s2.2.trace sv
        (s2.1.Add r, s2.2.emit (.serviceStop sv r))
      | none => s2
    (s3.1.Errorf "ErrorCollection(%s)" ", ", Pool.del s3.2 id)

/-- Stop kills all sub-resources of the instance. -/
def Pool.Stop (env : Env) (w : World) (id : ID) : error × World :=
  Pool.stop env w id

/-- Loop of `StopAll`: `for id := range p.instances { errStop.Add(p.stop(id)) }`, visiting the
keys in the order `order` the runtime chose; a key deleted before it is reached is not
produced by `range`. -/
def Pool.stopRange (env : Env) :
    List ID → ErrorCollection × World → ErrorCollection × World
  | [], s => s
  | id :: rest, s =>
    match mapGet s.2.servicePool.instances id with
    | none => Pool.stopRange env rest s
    | some _ =>
      let r := Pool.stop env s.2 id
      Pool.stopRange env rest (s.1.Add r.1, r.2)

/-- StopAll kills all running instances. -/
def Pool.StopAll (env : Env) (order : List ID) (w : World) : error × World :=
  let s := Pool.stopRange env order (⟨[]⟩, w)
  (s.1.Errorf "Some instances did not stop: %v" ". ", s.2)

/-- List returns all running service instances. -/
def Pool.List (w : World) : List (ID × Instance) :=
  w.servicePool.instances

/-- Instance returns the service instance by the requested id; `none` is the `nil` pointer. -/
def Pool.Instance (w : World) (id : ID) : Option Instance :=
  mapGet w.servicePool.instances id

/-- StopTopic is used in the event bus to announce that a service was stopped. -/
def StopTopic : String := "Service stop"

/-- ErrUnsupportedServiceType indicates that the manager tried to create an unsupported
service type. -/
def ErrUnsupportedServiceType : GoError := errorsNew "unsupported service type"

/-- Modelled from the spec: `Registry.Create(serviceType, options)` looks the service type up
and fails with `ErrUnsupportedServiceType` if it is absent; otherwise the registered factory
creates the service and its proposal. -/
def Registry.Create (env : Env) (w : World) (serviceType : String) (options : Options) :
    Except GoError (RunnableService × ServiceProposal) × World :=
  match mapGet env.serviceRegistry.factories serviceType with
  | none => (.error ErrUnsupportedServiceType, w)
  | some f => (env.createService w.trace f options, w.emit (.createService f options))

/-- Unexported `generateID`: a fresh version 4 UUID as text. -/
def generateID (env : Env) (w : World) : (ID × error) × World :=
  match env.uuidNewV4 w.trace with
  | .error err => (("", some err), w.emit .uuidNewV4)
  | .ok uid => ((uid.String, none), w.emit .uuidNewV4)

/-- Start starts an instance of the given service type if the registry knows one.  The
goroutine of the `go func()` statement is recorded in `tasks`. -/
def Manager.Start (env : Env) (w : World) (providerID : Identity) (serviceType : String)
    (options : Options) : (ID × error) × World :=
  match Registry.Create env w serviceType options with
  | (.error err, w1) => (("", some err), w1)
  | (.ok (service, proposal), w1) =>
    let w2 := w1.emit (.dialogWaiterFactory providerID serviceType)
    match env.dialogWaiterFactory w1.trace providerID serviceType with
    | .error err => (("", some err), w2)
    | .ok dialogWaiter =>
      let w3 := w2.emit (.dialogWaiterStart dialogWaiter)
      match env.dialogWaiterStart w2.trace dialogWaiter with
      | .error err => (("", some err), w3)
      | .ok providerContact =>
        let proposal := env.setProviderContact proposal providerID providerContact
        match generateID env w3 with
        | ((id, some err), w4) => ((id, some err), w4)
        | ((id, none), w4) =>
          let dialogHandler := env.dialogHandlerFactory w4.trace proposal service id
          let w5 := w4.emit (.dialogHandlerFactory proposal service id)
          let w6 := w5.emit (.serveDialogs dialogWaiter dialogHandler)
          match env.serveDialogs w5.trace dialogWaiter dialogHandler with
          | some err => ((id, some err), w6)
          | none =>
            let discovery := env.discoveryFactory w6.trace
            let w7 := w6.emit .discoveryFactory
            let w8 := w7.emit (.discoveryStart discovery providerID proposal)
            let inst : Instance :=
              { id := id, state := State.Starting, options := options, service := some service,
                proposal := proposal, dialogWaiter := some dialogWaiter,
                discovery := some discovery }
            let w9 := Pool.Add w8 inst
            ((id, none), { w9 with tasks := w9.tasks ++ [⟨inst, providerID, service, discovery⟩] })

/-- Kill stops all services. -/
def Manager.Kill (env : Env) (order : List ID) (w : World) : error × World :=
  Pool.StopAll env order w

/-- Stop stops the service. -/
def Manager.Stop (env : Env) (w : World) (id : ID) : error × World :=
  match Pool.Instance w id with
  | none => (some (errorsNew "service not found"), w)
  | some inst =>
    match Pool.Stop env w id with
    | (some err, w1) => (some err, w1)
    | (none, w1) => (none, w1.emit (.publish StopTopic inst))

/-- Service returns a service instance by the requested id. -/
def Manager.Service (w : World) (id : ID) : Option Instance :=
  Pool.Instance w id

/-- List returns the running service instances. -/
def Manager.List (w : World) : List (ID × Instance) :=
  Pool.List w

/-- The calls among `t` that published an event, with topic and payload. -/
def published (t : List Event) : List (String × Instance) :=
  t.filterMap (fun e => match e with
    | .publish topic inst => some (topic, inst)
    | _ => none)

/-- A recorded call is a `Stop` call on one of the sub-resources of `inst`. -/
def Event.stopsPartOf (inst : Instance) (e : Event) : Prop :=
  (∃ d, inst.discovery = some d ∧ e = Event.discoveryStop d) ∨
  (∃ dw res, inst.dialogWaiter = some dw ∧ e = Event.dialogWaiterStop dw res) ∨
  (∃ sv res, inst.service = some sv ∧ e = Event.serviceStop sv res)

/-- Follows the spec's words for `StopAll`, "applying the same per-instance stop" to each ID
in turn: for each ID, the instance registered under it when its turn came and the error its
stop returned. -/
def stopEachOnce (env : Env) : List ID → World → List (ID × Option Instance × error) × World
  | [], w => ([], w)
  | id :: rest, w =>
    let r := Pool.stop env w id
    let t := stopEachOnce env rest r.2
    ((id, Pool.Instance w id, r.1) :: t.1, t.2)

/-! ### The goroutine of `Start` -/

/-- Where the goroutine started by `Start` stands: the statement it executes next. -/
inductive TaskPc where
  | setRunning
  | serve
  | setNotRunning
  | stop
  | wait
  | done
deriving DecidableEq, Repr

/-- State of the goroutine: its position, the variables it captured (`task.inst` is the
instance struct it assigns to) and its two local error variables, which are only logged. -/
structure TaskState where
  pc : TaskPc
  task : Task
  serveErr : error
  stopErr : error
deriving DecidableEq, Repr

/-- The goroutine as `go func()` starts it. -/
def Task.start (task : Task) : TaskState :=
  { pc := TaskPc.setRunning, task := task, serveErr := none, stopErr := none }

/-- The pool holds a pointer to the instance struct, so an assignment to `instance.state` shows
in the table: the entries that are the instance `inst` take the new state. -/
def setStateInPool (w : World) (inst : Instance) (s : State) : World :=
  { w with servicePool := ⟨w.servicePool.instances.map
      (fun e => if e.2 = inst then (e.1, { inst with state := s }) else e)⟩ }

/-- One statement of the goroutine.  At `serve` the step is the return of the blocking
`service.Serve`; at `done` the goroutine has ended and nothing happens. -/
def TaskState.step (env : Env) (t : TaskState) (w : World) : TaskState × World :=
  match t.pc with
  | .setRunning =>
    ({ t with pc := TaskPc.serve,
              task := { t.task with inst := { t.task.inst with state := State.Running } } },
     setStateInPool w t.task.inst State.Running)
  | .serve =>
    ({ t with pc := TaskPc.setNotRunning,
              serveErr := env.serve w.trace t.task.service t.task.providerID },
     w.emit (.serve t.task.service t.task.providerID))
  | .setNotRunning =>
    ({ t with pc := TaskPc.stop,
              task := { t.task with inst := { t.task.inst with state := State.NotRunning } } },
     setStateInPool w t.task.inst State.NotRunning)
  | .stop =>
    let r := Pool.Stop env w t.task.inst.id
    ({ t with pc := TaskPc.wait, stopErr := r.1 }, r.2)
  | .wait =>
    ({ t with pc := TaskPc.done }, w.emit (.discoveryWait t.task.discovery))
  | .done => (t, w)

/-- A run of the goroutine: before its k-th statement the rest of the program changes the
world by `others k`. -/
def TaskState.run (env : Env) (others : Nat → World → World) :
    Nat → TaskState × World → TaskState × World
  | 0, s => s
  | n + 1, s =>
    let s1 := TaskState.run env others n s
    TaskState.step env s1.1 (others n s1.2)

/-- Nothing else runs between the statements of the goroutine. -/
def quiet : Nat → World → World := fun _ w => w

/-- Position of a state in the order Starting, Running, NotRunning. -/
def State.rank : State → Nat
  | .Starting => 0
  | .Running => 1
  | .NotRunning => 2

/-- Follows the claim's words: the state of the instance after `n` statements of its
goroutine is Starting, then Running, then NotRunning. -/
def stateAfter (n : Nat) : State :=
  if n = 0 then State.Starting else if n ≤ 2 then State.Running else State.NotRunning

/-- The position of the goroutine after `n` of its statements. -/
def pcAfter : Nat → TaskPc
  | 0 => TaskPc.setRunning
  | 1 => TaskPc.serve
  | 2 => TaskPc.setNotRunning
  | 3 => TaskPc.stop
  | 4 => TaskPc.wait
  | _ => TaskPc.done

/-! ### Sequences of teardown calls -/

/-- A sub-resource of an instance. -/
inductive Part where
  | discovery (d : Discovery)
  | dialogWaiter (w : DialogWaiter)
  | service (s : RunnableService)
deriving DecidableEq, Repr

/-- The sub-resources an instance owns. -/
def Instance.parts (inst : Instance) : List Part :=
  (inst.discovery.toList.map Part.discovery) ++ (inst.dialogWaiter.toList.map Part.dialogWaiter)
    ++ (inst.service.toList.map Part.service)

/-- The sub-resources of all instances of the table. -/
def partsOfPool (w : World) : List Part :=
  w.servicePool.instances.flatMap (fun e => e.2.parts)

/-- The sub-resource a recorded call stopped, if it is a `Stop` call. -/
def Event.stopped : Event → Option Part
  | .discoveryStop d => some (Part.discovery d)
  | .dialogWaiterStop w _ => some (Part.dialogWaiter w)
  | .serviceStop s _ => some (Part.service s)
  | _ => none

/-- A teardown call on the pool; `StopAll` with the order in which its loop visits the keys. -/
inductive PoolCall where
  | Stop (id : ID)
  | StopAll (order : List ID)
deriving DecidableEq, Repr

/-- The world one teardown call leaves. -/
def PoolCall.run (env : Env) (c : PoolCall) (w : World) : World :=
  match c with
  | .Stop id => (Pool.Stop env w id).2
  | .StopAll order => (Pool.StopAll env order w).2

/-- A sequence of teardown calls, one after the other as the pool's lock orders them. -/
def runPoolCalls (env : Env) : List PoolCall → World → World
  | [], w => w
  | c :: rest, w => runPoolCalls env rest (c.run env w)

/-- From the world `w0` the program reached `w` by calls that stopped each sub-resource at
most as often as the table of `w0` held it and the table of `w` no longer holds it. -/
def StoppedWithin (w0 w : World) : Prop :=
  ∃ calls : List Event, w.trace = w0.trace ++ calls ∧
    ∀ p : Part, List.count p (calls.filterMap Event.stopped) + List.count p (partsOfPool w)
      ≤ List.count p (partsOfPool w0)

/-! ### Sample values used to exercise the definitions -/

/-- An instance with all three sub-resources. -/
def sampleInstance (id : ID) (n : Nat) : Instance :=
  { id := id, state := State.Running, options := ⟨"opts"⟩, service := some ⟨n⟩,
    proposal := ⟨1, "provider", ""⟩, dialogWaiter := some ⟨n⟩, discovery := some ⟨n⟩ }

/-- A pool of three instances, with an empty history. -/
def sampleWorld : World :=
  { servicePool := ⟨[("a", sampleInstance "a" 1), ("b", sampleInstance "b" 2),
      ("c", sampleInstance "c" 3)]⟩,
    trace := [], tasks := [] }

/-- Collaborators of which dialog waiter 1 and service 2 fail to stop, and every setup step
succeeds. -/
def sampleEnv : Env :=
  { serviceRegistry := ⟨[("openvpn", 0)]⟩
    createService := fun _ _ _ => .ok (⟨7⟩, ⟨5, "", "openvpn"⟩)
    dialogWaiterFactory := fun _ _ _ => .ok ⟨8⟩
    dialogWaiterStart := fun _ _ => .ok ⟨"contact"⟩
    setProviderContact := fun p id c => { p with ProviderID := id.Address, payload := c.raw }
    uuidNewV4 := fun _ => .ok ⟨[1, 2, 3, 4, 5, 6, 7, 8, 9, 10, 11, 12, 13, 14, 15, 16]⟩
    dialogHandlerFactory := fun _ _ _ _ => ⟨9⟩
    serveDialogs := fun _ _ _ => none
    discoveryFactory := fun _ => ⟨10⟩
    dialogWaiterStop := fun _ d => if d.ref = 1 then some ⟨"dialog down"⟩ else none
    serviceStop := fun _ s => if s.ref = 2 then some ⟨"service stuck"⟩ else none
    serve := fun _ _ _ => some ⟨"serve failed"⟩ }

/-- The UUID that `sampleEnv` generates. -/
def sampleUUID : UUID := ⟨[1, 2, 3, 4, 5, 6, 7, 8, 9, 10, 11, 12, 13, 14, 15, 16]⟩

/-- The instance that `Start` registers with `sampleEnv`. -/
def sampleStarted : Instance :=
  { id := sampleUUID.String, state := State.Starting, options := ⟨"opts"⟩, service := some ⟨7⟩,
    proposal := ⟨5, "provider", "contact"⟩, dialogWaiter := some ⟨8⟩, discovery := some ⟨10⟩ }

/-- The goroutine that `Start` spawns with `sampleEnv`. -/
def sampleTask : Task :=
  { inst := sampleStarted, providerID := ⟨"provider"⟩, service := ⟨7⟩, discovery := ⟨10⟩ }

/-- The world `Start` leaves with `sampleEnv` on `sampleWorld`. -/
def sampleStartedWorld : World :=
  (Manager.Start sampleEnv sampleWorld ⟨"provider"⟩ "openvpn" ⟨"opts"⟩).2

/-- The goroutine of `sampleTask` blocked in `Serve`, and the world at that moment. -/
def sampleServing : TaskState × World :=
  TaskState.run sampleEnv quiet 1 (Task.start sampleTask, sampleStartedWorld)

/-- The same collaborators, except that `ServeDialogs` fails. -/
def sampleEnvNoDialogs : Env :=
  { sampleEnv with serveDialogs := fun _ _ _ => some ⟨"cannot serve"⟩ }

/-- A pool that already holds an instance under the ID that `sampleEnv` generates next. -/
def sampleWorldTaken : World :=
  { servicePool := ⟨[("a", sampleInstance "a" 1),
      (sampleUUID.String, sampleInstance sampleUUID.String 2)]⟩,
    trace := [], tasks := [] }

end service

/-! ## Package `session` -/

namespace session

/-- ID represents the session id type. -/
abbrev ID := String

/-- Payload of type `json.RawMessage`. -/
abbrev RawMessage := String

/-- ServiceConfiguration is `interface{}`: a payload, or `nil`. -/
abbrev ServiceConfiguration := Option String

/-- Instant of type `time.Time`, counted from its zero value. -/
abbrev Time := Nat

/-- Channel of type `chan struct{}`, identified by the order in which `make` created it. -/
structure Chan where
  ref : Nat
deriving DecidableEq, Repr

/-- Handle of a value behind the `BalanceTracker` interface. -/
structure BalanceTracker where
  ref : Nat
deriving DecidableEq, Repr

/-- Session holds all required information about the current session between service consumer
and provider.  A `nil` channel is `none`. -/
structure Session where
  ID : ID
  ConsumerID : Identity
  Config : ServiceConfiguration
  serviceID : String
  CreatedAt : Time
  Last : Bool
  done : Option Chan
deriving DecidableEq, Repr

/-- Zero value of `Session`, the initial value of the named result of `Create`. -/
def Session.zero : Session :=
  { ID := "", ConsumerID := ⟨""⟩, Config := none, serviceID := "", CreatedAt := 0,
    Last := false, done := none }

/-- Event of the NAT traversal package, `traversal.Event`, reduced to its type field. -/
structure TraversalEvent where
  type : String
deriving DecidableEq, Repr

/-- Calls and channel operations that leave the package, in the order they were made. -/
inductive Event where
  | generateID
  | timeNow
  | balanceTrackerFactory (consumer provider issuer : Identity)
  | natPingerChan (requestConfig : RawMessage)
  | lastEvent
  | send (ch : Chan)
  | close (ch : Chan)
deriving DecidableEq, Repr

/-- Goroutines started by `Create`, with the variables their closures capture. -/
inductive Task where
  | stopOnDone (done : Option Chan) (balanceTracker : BalanceTracker)
  | runTracker (balanceTracker : BalanceTracker) (consumerID : Identity) (sessionID : ID)
deriving DecidableEq, Repr

/-- Mutable state seen by the package.  `sessionStorage` is modelled from the spec: the
implementation behind the `Storage` interface is not among the files at hand, and the spec
describes it as a keyed store of sessions. -/
structure World where
  sessionStorage : List (ID × Session)
  trace : List Event
  tasks : List Task
  chans : Nat
  closed : List Chan
deriving DecidableEq, Repr

/-- Record one outgoing call. -/
def World.emit (w : World) (e : Event) : World :=
  { w with trace := w.trace ++ [e] }

/-- Modelled from the spec: `Storage.Add` puts the session under its ID. -/
def Storage.Add (w : World) (sessionInstance : Session) : World :=
  { w with sessionStorage := mapSet w.sessionStorage sessionInstance.ID sessionInstance }

/-- Modelled from the spec: `Storage.Find` looks a session up by ID; `none` is `found = false`. -/
def Storage.Find (w : World) (id : ID) : Option Session :=
  mapGet w.sessionStorage id

/-- Modelled from the spec: `Storage.Remove` deletes the session of the given ID. -/
def Storage.Remove (w : World) (id : ID) : World :=
  { w with sessionStorage := mapDelete w.sessionStorage id }

/-- Go `make(chan struct{})`: a channel no earlier `make` returned. -/
def makeChan (w : World) : Chan × World :=
  (⟨w.chans⟩, { w with chans := w.chans + 1 })

/-- Fields of the session `Manager` that are plain data. -/
structure Manager where
  currentProposal : ServiceProposal
  lastSessionShutdown : Option Chan
  serviceId : String
deriving DecidableEq, Repr

/-- The function-valued fields of the manager and the collaborators behind its interfaces; each
answer may depend on the history of calls.  `FailureEventType` is the constant of the
traversal package, declared outside the files at hand. -/
structure Env where
  generateID : List Event → ID × error
  now : List Event → Time
  fromAddress : String → Identity
  balanceTrackerFactory : List Event → Identity → Identity → Identity →
    Except GoError BalanceTracker
  lastEvent : List Event → TraversalEvent
  FailureEventType : String

/-- ErrorInvalidProposal is the validation error when an invalid proposal is requested for
session creation. -/
def ErrorInvalidProposal : GoError := errorsNew "proposal does not exist"

/-- ErrorSessionNotExists is returned when the consumer tries to destroy a session that does
not exist. -/
def ErrorSessionNotExists : GoError := errorsNew "session does not exists"

/-- ErrorWrongSessionOwner is returned when the consumer tries to destroy a session that does
not belong to him. -/
def ErrorWrongSessionOwner : GoError := errorsNew "wrong session owner"

/-- How a call ended: it returned its `error` result, or it panicked. -/
inductive Outcome where
  | returned (err : error)
  | panicked
deriving DecidableEq, Repr

/-- Create creates a session instance.  The two goroutines it starts are recorded in `tasks`. -/
def Manager.Create (env : Env) (manager : Manager) (w : World) (consumerID issuerID : Identity)
    (proposalID : Int) (config : ServiceConfiguration) (requestConfig : RawMessage) :
    (Session × error) × World :=
  let sessionInstance := Session.zero
  if manager.currentProposal.ID ≠ proposalID then
    ((sessionInstance, some ErrorInvalidProposal), w)
  else
    let g := env.generateID w.trace
    let w1 := w.emit .generateID
    let sessionInstance := { sessionInstance with ID := g.1 }
    match g.2 with
    | some err => ((sessionInstance, some err), w1)
    | none =>
      let sessionInstance := { sessionInstance with serviceID := manager.serviceId }
      let sessionInstance := { sessionInstance with ConsumerID := consumerID }
      let c := makeChan w1
      let sessionInstance := { sessionInstance with done := some c.1 }
      let sessionInstance := { sessionInstance with Config := config }
      let sessionInstance := { sessionInstance with CreatedAt := env.now c.2.trace }
      let w2 := c.2.emit .timeNow
      let provider := env.fromAddress manager.currentProposal.ProviderID
      let w3 := w2.emit (.balanceTrackerFactory consumerID provider issuerID)
      match env.balanceTrackerFactory w2.trace consumerID provider issuerID with
      | .error err => ((sessionInstance, some err), w3)
      | .ok balanceTracker =>
        let w4 := { w3 with tasks := w3.tasks ++
          [Task.stopOnDone sessionInstance.done balanceTracker,
           Task.runTracker balanceTracker consumerID sessionInstance.ID] }
        let w5 := w4.emit (.natPingerChan requestConfig)
        let w6 := Storage.Add w5 sessionInstance
        ((sessionInstance, none), w6)

/-- Go `close(ch)`: panics on a `nil` channel and on a channel that is already closed. -/
def closeChan (w : World) (ch : Option Chan) : Option World :=
  match ch with
  | none => none
  | some c =>
    if c ∈ w.closed then none
    else some { (w.emit (.close c)) with closed := c :: w.closed }

/-- Destroy destroys the session of the given sessionID.  The send on the shutdown channel is
recorded as made; that it can block is outside the model. -/
def Manager.Destroy (env : Env) (manager : Manager) (w : World) (consumerID : Identity)
    (sessionID : String) : Outcome × World :=
  match Storage.Find w sessionID with
  | none => (.returned (some ErrorSessionNotExists), w)
  | some sessionInstance =>
    if sessionInstance.ConsumerID ≠ consumerID then
      (.returned (some ErrorWrongSessionOwner), w)
    else
      let w1 : World :=
        match sessionInstance.Last, manager.lastSessionShutdown with
        | true, some shutdown =>
          let ev := env.lastEvent w.trace
          let wr := w.emit .lastEvent
          if ev.type = env.FailureEventType then wr.emit (.send shutdown) else wr
        | _, _ => w
      let w2 := Storage.Remove w1 sessionID
      match closeChan w2 sessionInstance.done with
      | none => (.panicked, w2)
      | some w3 => (.returned none, w3)

/-- The payloads forwarded to the NAT pinger sink among the calls `t`. -/
def pinged (t : List Event) : List RawMessage :=
  t.filterMap (fun e => match e with
    | .natPingerChan requestConfig => some requestConfig
    | _ => none)

/-- The arguments of the calls of the balance-tracker factory among the calls `t`. -/
def factoryCalls (t : List Event) : List (Identity × Identity × Identity) :=
  t.filterMap (fun e => match e with
    | .balanceTrackerFactory consumer provider issuer => some (consumer, provider, issuer)
    | _ => none)

/-- The session record and the world that a `Create` leaves when the generator returned `sid`
and the factory returned `bt`; used to state what a successful `Create` does in one
equation. -/
def createdSession (env : Env) (manager : Manager) (w : World) (consumerID : Identity)
    (config : ServiceConfiguration) (sid : ID) : Session :=
  { ID := sid, ConsumerID := consumerID, Config := config, serviceID := manager.serviceId,
    CreatedAt := env.now (w.trace ++ [Event.generateID]), Last := false,
    done := some ⟨w.chans⟩ }

/-- The channels on which a value was sent among the calls `t`. -/
def sends (t : List Event) : List Chan :=
  t.filterMap (fun e => match e with
    | .send ch => some ch
    | _ => none)

/-- The channels closed among the calls `t`, in order. -/
def closes (t : List Event) : List Chan :=
  t.filterMap (fun e => match e with
    | .close ch => some ch
    | _ => none)

/-- The number of reads of the NAT event tracker among the calls `t`. -/
def trackerReads (t : List Event) : Nat :=
  t.countP (fun e => decide (e = Event.lastEvent))

/-- One call on the manager, by any caller: the dialog handlers, or the goroutine of `Create`
that destroys the session when its balance tracker fails. -/
inductive Call where
  | Create (consumerID issuerID : Identity) (proposalID : Int) (config : ServiceConfiguration)
      (requestConfig : RawMessage)
  | Destroy (consumerID : Identity) (sessionID : String)
deriving DecidableEq, Repr

/-- The world one call leaves; `none` when the call panics. -/
def Call.run (env : Env) (manager : Manager) (c : Call) (w : World) : Option World :=
  match c with
  | .Create consumerID issuerID proposalID config requestConfig =>
    some (Manager.Create env manager w consumerID issuerID proposalID config requestConfig).2
  | .Destroy consumerID sessionID =>
    match Manager.Destroy env manager w consumerID sessionID with
    | (.returned _, w1) => some w1
    | (.panicked, _) => none

/-- A sequence of calls on one manager, one after the other as the creation lock orders them;
`none` when one of them panics. -/
def runCalls (env : Env) (manager : Manager) : List Call → World → Option World
  | [], w => some w
  | c :: rest, w =>
    match c.run env manager w with
    | none => none
    | some w1 => runCalls env manager rest w1

/-- The world of a manager built by `NewManager` on an empty storage. -/
def World.fresh : World :=
  { sessionStorage := [], trace := [], tasks := [], chans := 0, closed := [] }

/-- What every world reached from a fresh one satisfies: the stored sessions have pairwise
different completion signals, each made by `make` and still open; the closed channels were
made by `make`, and they are those the `close` calls of the history closed, each once. -/
def World.Sound (w : World) : Prop :=
  (w.sessionStorage.map (fun e => e.2.done)).Nodup ∧
  (∀ e ∈ w.sessionStorage, ∃ c, e.2.done = some c ∧ c.ref < w.chans ∧ c ∉ w.closed) ∧
  (∀ c ∈ w.closed, c.ref < w.chans) ∧
  closes w.trace = w.closed.reverse ∧
  w.closed.Nodup

/-! ### Sample values used to exercise the definitions -/

/-- A manager serving proposal 7, with a shutdown sink. -/
def sampleManager : Manager :=
  { currentProposal := ⟨7, "0xProvider", ""⟩, lastSessionShutdown := some ⟨0⟩,
    serviceId := "svc" }

/-- Collaborators that succeed: the generated ID is `first` on an empty history and `later`
afterwards. -/
def sampleEnv : Env :=
  { generateID := fun t => (if t = [] then "first" else "later", none)
    now := fun t => 1000 + t.length
    fromAddress := fun a => ⟨a⟩
    balanceTrackerFactory := fun t _ _ _ => .ok ⟨t.length⟩
    lastEvent := fun _ => ⟨"failure"⟩
    FailureEventType := "failure" }

/-- The same collaborators, except that no balance tracker can be built. -/
def sampleEnvNoTracker : Env :=
  { sampleEnv with balanceTrackerFactory := fun _ _ _ _ => .error ⟨"no tracker"⟩ }

/-- The same collaborators, except that the last NAT event is a success. -/
def sampleEnvNatOk : Env :=
  { sampleEnv with lastEvent := fun _ => ⟨"success"⟩ }

/-- A session of consumer `alice`, whose completion signal is channel 1. -/
def sampleSession : Session :=
  { ID := "s1", ConsumerID := ⟨"alice"⟩, Config := some "cfg", serviceID := "svc",
    CreatedAt := 5, Last := true, done := some ⟨1⟩ }

/-- A storage holding `sampleSession`; channels 0 and 1 exist, none is closed. -/
def sampleWorld : World :=
  { sessionStorage := [("s1", sampleSession)], trace := [], tasks := [], chans := 2,
    closed := [] }

end session

/-! ## Package `traversal`: the NAT proxy -/

namespace traversal

/-- Address of type `*net.UDPAddr`, as the text it was resolved from. -/
structure UDPAddr where
  text : String
deriving DecidableEq, Repr

/-- Handle of an open connection behind a non-nil `*net.UDPConn`; a `nil` pointer is `none`
of `Option UDPConn`. -/
structure UDPConn where
  ref : Nat
deriving DecidableEq, Repr

/-- NATProxy relays between a NAT-punched connection and the local service port. -/
structure NATProxy where
  servicePort : Int
deriving DecidableEq, Repr

/-- NewNATProxy returns a proxy whose port has its zero value. -/
def NewNATProxy : NATProxy := ⟨0⟩

/-- Calls into the `net` package, in the order they were made.  A method of a connection is
only ever entered on a non-nil pointer: on a `nil` pointer the call panics before the method
runs. -/
inductive Event where
  | resolveUDPAddr (network address : String)
  | dialUDP (network : String) (raddr : UDPAddr)
  | read (conn : UDPConn)
  | write (conn : UDPConn) (n : Nat)
  | close (conn : UDPConn)
deriving DecidableEq, Repr

/-- The two `go func()` literals of `handOff`: the first copies from the incoming connection
to the proxy connection, the second from the proxy connection to the incoming one. -/
inductive Direction where
  | fromClient
  | toClient
deriving DecidableEq, Repr

/-- Relay goroutine started by `handOff`: which of the two function literals it runs, and the
variables the closure captures.  `incomingConn` is the non-nil connection handed to
`handOff`; `proxyConn` is what `getConnection` returned, `nil` included. -/
structure Relay where
  direction : Direction
  incomingConn : UDPConn
  proxyConn : Option UDPConn
deriving DecidableEq, Repr

/-- How a goroutine ends: its function returns, or it panics; a panic that nothing recovers
ends the whole process. -/
inductive Ending where
  | returned
  | panicked
deriving DecidableEq, Repr

/-- The calls made so far and the goroutines spawned so far. -/
structure World where
  trace : List Event
  tasks : List Relay
deriving DecidableEq, Repr

/-- Record one call. -/
def World.emit (w : World) (e : Event) : World :=
  { w with trace := w.trace ++ [e] }

/-- Behaviour of the `net` package and of the open connections; each answer may depend on the
history of calls.  `read` and `write` give the number of bytes and the error. -/
structure Env where
  resolveUDPAddr : List Event → String → String → Except GoError UDPAddr
  dialUDP : List Event → String → UDPAddr → Except GoError UDPConn
  read : List Event → UDPConn → Nat × error
  write : List Event → UDPConn → Nat → Nat × error

/-- Go `fmt.Sprintf("127.0.0.1:%d", port)`. -/
def localAddress (port : Int) : String :=
  "127.0.0.1:" ++ toString port

/-- Method `setServicePort`. -/
def NATProxy.setServicePort (np : NATProxy) (port : Int) : NATProxy :=
  { np with servicePort := port }

/-- Method `getConnection`: the dialled connection, or `nil` and the error. -/
def NATProxy.getConnection (env : Env) (np : NATProxy) (w : World) :
    (Option UDPConn × error) × World :=
  let address := localAddress np.servicePort
  let w1 := w.emit (.resolveUDPAddr "udp4" address)
  match env.resolveUDPAddr w.trace "udp4" address with
  | .error err => ((none, some err), w1)
  | .ok udpAddr =>
    let w2 := w1.emit (.dialUDP "udp" udpAddr)
    match env.dialUDP w1.trace "udp" udpAddr with
    | .error err => ((none, some err), w2)
    | .ok conn => ((some conn, none), w2)

/-- Method `handOff`, called with a non-nil incoming connection.  After the call of
`getConnection` the error is logged and nothing else; the two `go func()` statements follow
on every path. -/
def NATProxy.handOff (env : Env) (np : NATProxy) (incomingConn : UDPConn) (w : World) : World :=
  let r := np.getConnection env w
  let proxyConn := r.1.1
  let w1 := r.2
  { w1 with tasks := w1.tasks ++
    [{ direction := .fromClient, incomingConn := incomingConn, proxyConn := proxyConn },
     { direction := .toClient, incomingConn := incomingConn, proxyConn := proxyConn }] }

/-- Method `Read` of a non-nil connection. -/
def connRead (env : Env) (w : World) (conn : UDPConn) : (Nat × error) × World :=
  (env.read w.trace conn, w.emit (.read conn))

/-- Method `Write` of a non-nil connection. -/
def connWrite (env : Env) (w : World) (conn : UDPConn) (n : Nat) : (Nat × error) × World :=
  (env.write w.trace conn n, w.emit (.write conn n))

/-- Go `io.Copy(dst, src)` on non-nil connections: read, write what was read, until a read or
a write fails or a write is short.  `none` when the copy has not returned after `fuel`
reads. -/
def ioCopy (env : Env) : Nat → UDPConn → UDPConn → World → Option World
  | 0, _, _, _ => none
  | fuel + 1, dst, src, w =>
    let r := connRead env w src
    if 0 < r.1.1 then
      let x := connWrite env r.2 dst r.1.1
      if x.1.2 ≠ none ∨ x.1.1 ≠ r.1.1 then some x.2
      else if r.1.2 ≠ none then some x.2
      else ioCopy env fuel dst src x.2
    else if r.1.2 ≠ none then some r.2
    else ioCopy env fuel dst src r.2

/-- Body of a relay goroutine.  `defer incomingConn.Close()` registers the close of the
incoming connection.  `defer proxyConn.Close()` evaluates the receiver of `Close`, a method
promoted from the struct embedded in `net.UDPConn`: on a `nil` pointer this statement panics,
the registered `incomingConn.Close()` runs, and `io.Copy` is never reached.  Otherwise the
copy runs and, when it returns, `proxyConn.Close()` and `incomingConn.Close()` run in that
order.  `none` when the copy has not returned after `fuel` reads. -/
def Relay.run (env : Env) (fuel : Nat) (r : Relay) (w : World) : Option (Ending × World) :=
  match r.proxyConn with
  | none => some (.panicked, w.emit (.close r.incomingConn))
  | some proxyConn =>
    let copied :=
      match r.direction with
      | .fromClient => ioCopy env fuel proxyConn r.incomingConn w
      | .toClient => ioCopy env fuel r.incomingConn proxyConn w
    match copied with
    | none => none
    | some w1 => some (.returned, (w1.emit (.close proxyConn)).emit (.close r.incomingConn))

/-! ### Sample values used to exercise the definitions -/

/-- A `net` package that resolves the ports 0 to 65535 only, dials successfully, and
connections that deliver three bytes and then end. -/
def sampleEnv : Env :=
  { resolveUDPAddr := fun _ _ address =>
      if address = "127.0.0.1:70000" then .error ⟨"address 127.0.0.1:70000: invalid port"⟩
      else .ok ⟨address⟩
    dialUDP := fun t _ _ => .ok ⟨t.length⟩
    read := fun t _ => if t.length < 4 then (3, none) else (0, some ⟨"EOF"⟩)
    write := fun _ _ n => (n, none) }

/-- An empty history. -/
def sampleWorld : World := { trace := [], tasks := [] }

end traversal

/-! ## Properties -/

section maps

variable {κ ν : Type} [DecidableEq κ]

theorem mapGet_eq_none_iff (m : List (κ × ν)) (key : κ) :
    mapGet m key = none ↔ key ∉ m.map Prod.fst := by
  induction m with
  | nil => simp [mapGet]
  | cons e rest ih =>
    obtain ⟨k, v⟩ := e
    by_cases h : k = key
    · simp [mapGet, h]
    · have h2 : ¬ key = k := fun x => h x.symm
      simp [mapGet, h, h2, ih]

theorem mapGet_mapDelete_self (m : List (κ × ν)) (key : κ) :
    mapGet (mapDelete m key) key = none := by
  rw [mapGet_eq_none_iff]
  simp [mapDelete, List.mem_filter]

theorem mapGet_mapDelete_of_ne (m : List (κ × ν)) (key other : κ) (h : other ≠ key) :
    mapGet (mapDelete m key) other = mapGet m other := by
  induction m with
  | nil => simp [mapDelete, mapGet]
  | cons e rest ih =>
    obtain ⟨k, v⟩ := e
    by_cases hk : k = key
    · subst hk
      have hne : ¬ k = other := fun x => h x.symm
      simpa [mapDelete, List.filter_cons, mapGet, hne] using ih
    · by_cases ho : k = other
      · subst ho
        simp [mapDelete, List.filter_cons, hk, mapGet]
      · simpa [mapDelete, List.filter_cons, hk, mapGet, ho] using ih

theorem mapDelete_of_absent (m : List (κ × ν)) (key : κ) (h : mapGet m key = none) :
    mapDelete m key = m := by
  rw [mapGet_eq_none_iff] at h
  simp only [mapDelete, List.filter_eq_self]
  intro e he
  have : e.1 ≠ key := by
    intro heq
    exact h (List.mem_map.mpr ⟨e, he, heq⟩)
  simpa using this

theorem mapGet_append (m n : List (κ × ν)) (key : κ) :
    mapGet (m ++ n) key = (mapGet m key).orElse (fun _ => mapGet n key) := by
  induction m with
  | nil => simp [mapGet]
  | cons e rest ih =>
    obtain ⟨k, v⟩ := e
    by_cases hk : k = key
    · simp [mapGet, hk]
    · simp [mapGet, hk, ih]

theorem mapGet_mapSet_self (m : List (κ × ν)) (key : κ) (v : ν) :
    mapGet (mapSet m key v) key = some v := by
  simp [mapSet, mapGet_append, mapGet_mapDelete_self, mapGet]

theorem mapGet_mapSet_of_ne (m : List (κ × ν)) (key other : κ) (v : ν) (h : other ≠ key) :
    mapGet (mapSet m key v) other = mapGet m other := by
  have hne : ¬ key = other := fun x => h x.symm
  simp [mapSet, mapGet_append, mapGet_mapDelete_of_ne m key other h, mapGet, hne]

end maps

section texts

theorem textContains_refl (a : String) : textContains a a :=
  List.infix_refl _

theorem stringsJoin_contains (l : List String) (sep a : String) (h : a ∈ l) :
    textContains (stringsJoin l sep) a := by
  induction l with
  | nil => simp at h
  | cons x rest ih =>
    cases rest with
    | nil =>
      simp at h
      subst h
      exact List.infix_refl _
    | cons b rest2 =>
      unfold textContains
      simp only [stringsJoin, String.data_append]
      rcases List.mem_cons.mp h with hx | hr
      · subst hx
        exact (List.prefix_append _ _).isInfix.trans (List.prefix_append _ _).isInfix
      · exact (ih hr).trans (List.suffix_append _ _).isInfix

theorem sprintfChars_stop (arg : List Char) :
    sprintfChars "ErrorCollection(%s)".data arg = "ErrorCollection(".data ++ arg ++ ")".data := by
  simp [sprintfChars]

theorem sprintfChars_stopAll (arg : List Char) :
    sprintfChars "Some instances did not stop: %v".data arg
      = "Some instances did not stop: ".data ++ arg := by
  simp [sprintfChars]

theorem Errorf_eq_none_iff (ec : ErrorCollection) (format delimiter : String) :
    ec.Errorf format delimiter = none ↔ ec.errs = [] := by
  unfold ErrorCollection.Errorf
  cases h : ec.errs <;> simp

/-- The aggregate error names every collected error, for a format that keeps its argument. -/
theorem Errorf_contains (ec : ErrorCollection) (format delimiter : String)
    (hformat : ∀ arg, arg <:+: sprintfChars format.data arg) (e : GoError) (h : e ∈ ec.errs) :
    ∃ agg, ec.Errorf format delimiter = some agg ∧ textContains agg.text e.text := by
  have hne : ec.errs ≠ [] := List.ne_nil_of_mem h
  have hemp : ec.errs.isEmpty = false := by
    cases hc : ec.errs with
    | nil => exact absurd hc hne
    | cons a b => rfl
  refine ⟨⟨Sprintf format (stringsJoin (ec.errs.map (fun e => e.text)) delimiter)⟩,
    by simp [ErrorCollection.Errorf, hemp], ?_⟩
  have hjoin := stringsJoin_contains (ec.errs.map (fun e => e.text)) delimiter e.text
    (List.mem_map.mpr ⟨e, h, rfl⟩)
  unfold textContains at hjoin ⊢
  simp only [Sprintf]
  exact hjoin.trans (hformat _)

theorem format_stop_keeps (arg : List Char) :
    arg <:+: sprintfChars "ErrorCollection(%s)".data arg := by
  rw [sprintfChars_stop]
  exact List.infix_append _ _ _

theorem format_stopAll_keeps (arg : List Char) :
    arg <:+: sprintfChars "Some instances did not stop: %v".data arg := by
  rw [sprintfChars_stopAll]
  exact (List.suffix_append _ _).isInfix

end texts

namespace service

theorem ErrorCollection_Add_eq (ec : ErrorCollection) (r : error) :
    ec.Add r = ⟨ec.errs ++ r.toList⟩ := by
  cases r <;> simp [ErrorCollection.Add]

theorem filterMap_failure_cons (e : Event) (t : List Event) :
    (e :: t).filterMap Event.failure = e.failure.toList ++ t.filterMap Event.failure := by
  cases h : e.failure <;> simp [List.filterMap_cons, h]

theorem Pool_stop_absent (env : Env) (w : World) (id : ID)
    (h : mapGet w.servicePool.instances id = none) :
    Pool.stop env w id = (some ErrNoSuchInstance, w) := by
  simp [Pool.stop, h]

/-- Shape of one teardown of a registered instance: the calls it makes, the table it leaves and
the error it returns. -/
theorem Pool_stop_present (env : Env) (w : World) (id : ID) (inst : Instance)
    (h : mapGet w.servicePool.instances id = some inst) :
    ∃ calls : List Event,
      (Pool.stop env w id).2 = { servicePool := ⟨mapDelete w.servicePool.instances id⟩,
                                 trace := w.trace ++ calls, tasks := w.tasks } ∧
      (Pool.stop env w id).1
        = ErrorCollection.Errorf ⟨calls.filterMap Event.failure⟩ "ErrorCollection(%s)" ", " ∧
      (∀ e ∈ calls, Event.stopsPartOf inst e) := by
  refine ⟨List.drop w.trace.length (Pool.stop env w id).2.trace, ?_, ?_, ?_⟩ <;>
    obtain ⟨iid, st, opts, sv, prop, dw, dc⟩ := inst <;>
    cases dc <;> cases dw <;> cases sv <;>
    simp only [Pool.stop, h, World.emit, Pool.del, List.append_assoc, List.drop_left,
      List.drop_length, List.append_nil, List.filterMap_nil, List.singleton_append,
      List.nil_append] <;>
    simp [ErrorCollection_Add_eq, filterMap_failure_cons, Event.failure, Event.stopsPartOf]

/-- C1: for every pool and every id that is not a key of the pool's table, `Pool.Stop(id)`
returns `ErrNoSuchInstance`, leaves the table that `List()` returns as it was, and makes no
call at all, so no `Stop` reaches a discovery handle, a dialog waiter or a service. -/
theorem Pool_Stop_unknown_id (env : Env) (w : World) (id : ID)
    (h : id ∉ (Pool.List w).map Prod.fst) :
    (Pool.Stop env w id).1 = some ErrNoSuchInstance ∧
    Pool.List (Pool.Stop env w id).2 = Pool.List w ∧
    (Pool.Stop env w id).2.trace = w.trace ∧
    (Pool.Stop env w id).2 = w := by
  have habs : mapGet w.servicePool.instances id = none :=
    (mapGet_eq_none_iff _ _).mpr h
  simp [Pool.Stop, Pool_stop_absent env w id habs]

theorem Pool_Stop_unknown_id_witness :
    "zz" ∉ (Pool.List sampleWorld).map Prod.fst ∧
    (Pool.Stop sampleEnv sampleWorld "zz").1 = some ErrNoSuchInstance ∧
    Pool.List (Pool.Stop sampleEnv sampleWorld "zz").2 = Pool.List sampleWorld ∧
    (Pool.Stop sampleEnv sampleWorld "zz").2.trace = sampleWorld.trace ∧
    (Pool.Stop sampleEnv sampleWorld "zz").2 = sampleWorld :=
  ⟨by decide, Pool_Stop_unknown_id sampleEnv sampleWorld "zz" (by decide)⟩

/-- C2: for every pool and every id present in it, after `Pool.Stop(id)` the id is absent
from the table, whatever the dialog waiter's and the service's `Stop` returned (the
collaborators `env` are arbitrary), and every other entry of the table is unchanged. -/
theorem Pool_Stop_removes_id (env : Env) (w : World) (id : ID)
    (h : id ∈ (Pool.List w).map Prod.fst) :
    id ∉ (Pool.List (Pool.Stop env w id).2).map Prod.fst ∧
    Pool.Instance (Pool.Stop env w id).2 id = none ∧
    (∀ other, other ≠ id →
      Pool.Instance (Pool.Stop env w id).2 other = Pool.Instance w other) ∧
    Pool.List (Pool.Stop env w id).2 = (Pool.List w).filter (fun e => decide (e.1 ≠ id)) := by
  have hpres : mapGet w.servicePool.instances id ≠ none := by
    intro hn
    exact (mapGet_eq_none_iff _ _).mp hn h
  obtain ⟨inst, hinst⟩ := Option.ne_none_iff_exists'.mp hpres
  obtain ⟨calls, hw, -, -⟩ := Pool_stop_present env w id inst hinst
  have hlist : Pool.List (Pool.Stop env w id).2 = mapDelete w.servicePool.instances id := by
    simp [Pool.Stop, Pool.List, hw]
  refine ⟨?_, ?_, ?_, ?_⟩
  · rw [hlist, ← mapGet_eq_none_iff]
    exact mapGet_mapDelete_self _ _
  · simp only [Pool.Instance]
    rw [show (Pool.Stop env w id).2.servicePool.instances
        = mapDelete w.servicePool.instances id from hlist]
    exact mapGet_mapDelete_self _ _
  · intro other hne
    simp only [Pool.Instance]
    rw [show (Pool.Stop env w id).2.servicePool.instances
        = mapDelete w.servicePool.instances id from hlist]
    exact mapGet_mapDelete_of_ne _ _ _ hne
  · rw [hlist]
    rfl

theorem Pool_Stop_removes_id_witness :
    "a" ∈ (Pool.List sampleWorld).map Prod.fst ∧
    "a" ∉ (Pool.List (Pool.Stop sampleEnv sampleWorld "a").2).map Prod.fst ∧
    Pool.Instance (Pool.Stop sampleEnv sampleWorld "a").2 "a" = none ∧
    (∀ other, other ≠ "a" →
      Pool.Instance (Pool.Stop sampleEnv sampleWorld "a").2 other
        = Pool.Instance sampleWorld other) ∧
    Pool.List (Pool.Stop sampleEnv sampleWorld "a").2
      = (Pool.List sampleWorld).filter (fun e => decide (e.1 ≠ "a")) :=
  ⟨by decide, Pool_Stop_removes_id sampleEnv sampleWorld "a" (by decide)⟩

/-- C3: for every id present in the pool, with `calls` the calls `Pool.Stop(id)` makes: they
are `Stop` calls on the sub-resources of the instance; the result is the aggregate of the
errors the dialog waiter's and the service's `Stop` returned, so it is `nil` if and only if
neither returned an error (a `nil` sub-resource is not called and counts as no error), and
otherwise it is one error whose text contains the message of each failure.  A discovery
`Stop` returns nothing and contributes nothing to the result. -/
theorem Pool_Stop_aggregate (env : Env) (w : World) (id : ID) (inst : Instance)
    (h : Pool.Instance w id = some inst) :
    ∃ calls : List Event,
      (Pool.Stop env w id).2.trace = w.trace ++ calls ∧
      (∀ e ∈ calls, Event.stopsPartOf inst e) ∧
      (∀ d, (Event.discoveryStop d).failure = none) ∧
      (Pool.Stop env w id).1
        = ErrorCollection.Errorf ⟨calls.filterMap Event.failure⟩ "ErrorCollection(%s)" ", " ∧
      ((Pool.Stop env w id).1 = none ↔ ∀ e ∈ calls, e.failure = none) ∧
      (∀ e ∈ calls, ∀ err, e.failure = some err →
        ∃ agg, (Pool.Stop env w id).1 = some agg ∧ textContains agg.text err.text) := by
  obtain ⟨calls, hw, hres, hcalls⟩ := Pool_stop_present env w id inst h
  refine ⟨calls, by simp [Pool.Stop, hw], hcalls, fun _ => rfl, hres, ?_, ?_⟩
  · simp only [Pool.Stop]
    rw [hres, Errorf_eq_none_iff]
    simp [List.filterMap_eq_nil_iff]
  · intro e he err herr
    simp only [Pool.Stop]
    rw [hres]
    exact Errorf_contains _ _ _ format_stop_keeps err
      (List.mem_filterMap.mpr ⟨e, he, herr⟩)

theorem Pool_Stop_aggregate_witness :
    Pool.Instance sampleWorld "a" = some (sampleInstance "a" 1) ∧
    (Pool.Stop sampleEnv sampleWorld "a").1 = some ⟨"ErrorCollection(dialog down)"⟩ ∧
    ∃ calls : List Event,
      (Pool.Stop sampleEnv sampleWorld "a").2.trace = sampleWorld.trace ++ calls ∧
      (∀ e ∈ calls, Event.stopsPartOf (sampleInstance "a" 1) e) ∧
      (∀ d, (Event.discoveryStop d).failure = none) ∧
      (Pool.Stop sampleEnv sampleWorld "a").1
        = ErrorCollection.Errorf ⟨calls.filterMap Event.failure⟩ "ErrorCollection(%s)" ", " ∧
      ((Pool.Stop sampleEnv sampleWorld "a").1 = none ↔ ∀ e ∈ calls, e.failure = none) ∧
      (∀ e ∈ calls, ∀ err, e.failure = some err →
        ∃ agg, (Pool.Stop sampleEnv sampleWorld "a").1 = some agg ∧
          textContains agg.text err.text) :=
  ⟨by decide, by decide,
    Pool_Stop_aggregate sampleEnv sampleWorld "a" (sampleInstance "a" 1) (by decide)⟩

theorem Pool_stop_table (env : Env) (w : World) (id : ID) :
    (Pool.stop env w id).2.servicePool.instances = mapDelete w.servicePool.instances id ∧
    (Pool.stop env w id).2.tasks = w.tasks := by
  cases h : mapGet w.servicePool.instances id with
  | none => simp [Pool_stop_absent env w id h, mapDelete_of_absent _ _ h]
  | some inst =>
    obtain ⟨calls, hw, -, -⟩ := Pool_stop_present env w id inst h
    simp [hw]

theorem stopRange_eq_stopEachOnce (env : Env) (order : List ID) :
    ∀ (ec : ErrorCollection) (w : World), order.Nodup →
      (∀ id ∈ order, mapGet w.servicePool.instances id ≠ none) →
      Pool.stopRange env order (ec, w)
        = (⟨ec.errs ++ (stopEachOnce env order w).1.filterMap (fun x => x.2.2)⟩,
           (stopEachOnce env order w).2) := by
  induction order with
  | nil => intro ec w _ _; simp [Pool.stopRange, stopEachOnce]
  | cons id rest ih =>
    intro ec w hnd hpres
    obtain ⟨hnot, hnd2⟩ := List.nodup_cons.mp hnd
    obtain ⟨inst, hinst⟩ := Option.ne_none_iff_exists'.mp (hpres id (List.mem_cons_self _ _))
    have hrest : ∀ id2 ∈ rest,
        mapGet (Pool.stop env w id).2.servicePool.instances id2 ≠ none := by
      intro id2 h2
      have hne : id2 ≠ id := fun heq => hnot (heq ▸ h2)
      rw [(Pool_stop_table env w id).1, mapGet_mapDelete_of_ne _ _ _ hne]
      exact hpres id2 (List.mem_cons_of_mem _ h2)
    simp only [Pool.stopRange, hinst, stopEachOnce]
    rw [ih _ _ hnd2 hrest, ErrorCollection_Add_eq]
    cases hr : (Pool.stop env w id).1 <;> simp [List.filterMap_cons]

theorem stopEachOnce_found (env : Env) (order : List ID) :
    ∀ w : World, order.Nodup →
      (stopEachOnce env order w).1.map (fun x => (x.1, x.2.1))
        = order.map (fun id => (id, Pool.Instance w id)) := by
  induction order with
  | nil => intro w _; simp [stopEachOnce]
  | cons id rest ih =>
    intro w hnd
    obtain ⟨hnot, hnd2⟩ := List.nodup_cons.mp hnd
    simp only [stopEachOnce, List.map_cons, ih _ hnd2]
    congr 1
    apply List.map_congr_left
    intro id2 h2
    have hne : id2 ≠ id := fun heq => hnot (heq ▸ h2)
    simp only [Pool.Instance]
    rw [(Pool_stop_table env w id).1, mapGet_mapDelete_of_ne _ _ _ hne]

theorem stopEachOnce_table (env : Env) (order : List ID) :
    ∀ w : World,
      (stopEachOnce env order w).2.servicePool.instances
        = w.servicePool.instances.filter (fun e => decide (e.1 ∉ order)) := by
  induction order with
  | nil => intro w; simp [stopEachOnce]
  | cons id rest ih =>
    intro w
    simp only [stopEachOnce, ih, (Pool_stop_table env w id).1, mapDelete, List.filter_filter]
    apply List.filter_congr
    intro e _
    simp [List.mem_cons, not_or, Bool.and_comm]

/-- C4: for every pool of N instances and every order in which the `range` loop visits its
keys, `Pool.StopAll()` (and `Manager.Kill()`, which delegates to it) leaves the table empty and
applies the per-instance stop to each of the N instances exactly once, each time to the
instance originally registered under the id; it returns `nil` when the number M of instances
whose stop returned an error is 0, and otherwise one aggregate error whose text contains the
error of each of the M failed stops. -/
theorem Pool_StopAll_all (env : Env) (w : World) (order : List ID)
    (hwf : ((Pool.List w).map Prod.fst).Nodup)
    (hperm : order.Perm ((Pool.List w).map Prod.fst)) :
    Pool.List (Pool.StopAll env order w).2 = [] ∧
    (Pool.StopAll env order w).2 = (stopEachOnce env order w).2 ∧
    (stopEachOnce env order w).1.map (fun x => (x.1, x.2.1))
      = order.map (fun id => (id, Pool.Instance w id)) ∧
    (∀ x ∈ (stopEachOnce env order w).1, ∃ inst, x.2.1 = some inst) ∧
    (stopEachOnce env order w).1.length = (Pool.List w).length ∧
    (Pool.StopAll env order w).1
      = ErrorCollection.Errorf ⟨(stopEachOnce env order w).1.filterMap (fun x => x.2.2)⟩
          "Some instances did not stop: %v" ". " ∧
    ((Pool.StopAll env order w).1 = none ↔
      (stopEachOnce env order w).1.countP (fun x => x.2.2.isSome) = 0) ∧
    (∀ x ∈ (stopEachOnce env order w).1, ∀ err, x.2.2 = some err →
      ∃ agg, (Pool.StopAll env order w).1 = some agg ∧ textContains agg.text err.text) ∧
    Manager.Kill env order w = Pool.StopAll env order w := by
  have hnd : order.Nodup := hperm.nodup_iff.mpr hwf
  have hpres : ∀ id ∈ order, mapGet w.servicePool.instances id ≠ none := by
    intro id hid hn
    exact (mapGet_eq_none_iff _ _).mp hn (hperm.mem_iff.mp hid)
  have hrange := stopRange_eq_stopEachOnce env order ⟨[]⟩ w hnd hpres
  have hfound := stopEachOnce_found env order w hnd
  have hres : (Pool.StopAll env order w).1
      = ErrorCollection.Errorf ⟨(stopEachOnce env order w).1.filterMap (fun x => x.2.2)⟩
          "Some instances did not stop: %v" ". " := by
    simp [Pool.StopAll, hrange]
  have hworld : (Pool.StopAll env order w).2 = (stopEachOnce env order w).2 := by
    simp [Pool.StopAll, hrange]
  refine ⟨?_, hworld, hfound, ?_, ?_, hres, ?_, ?_, rfl⟩
  · rw [hworld]
    simp only [Pool.List, stopEachOnce_table, List.filter_eq_nil_iff]
    intro e he
    have : e.1 ∈ order := hperm.mem_iff.mpr (List.mem_map.mpr ⟨e, he, rfl⟩)
    simpa using this
  · intro x hx
    have hmem : (x.1, x.2.1) ∈ order.map (fun id => (id, Pool.Instance w id)) := by
      rw [← hfound]
      exact List.mem_map.mpr ⟨x, hx, rfl⟩
    obtain ⟨id, hid, heq⟩ := List.mem_map.mp hmem
    have h2 : x.2.1 = Pool.Instance w id := (congrArg Prod.snd heq).symm
    rw [h2]
    exact Option.ne_none_iff_exists'.mp (hpres id hid)
  · have hlen := congrArg List.length hfound
    simp only [List.length_map] at hlen
    rw [hlen, hperm.length_eq, List.length_map]
  · rw [hres, Errorf_eq_none_iff]
    simp [List.filterMap_eq_nil_iff, List.countP_eq_zero]
  · intro x hx err herr
    rw [hres]
    exact Errorf_contains _ _ _ format_stopAll_keeps err
      (List.mem_filterMap.mpr ⟨x, hx, herr⟩)

theorem Pool_StopAll_all_witness :
    ((Pool.List sampleWorld).map Prod.fst).Nodup ∧
    ["b", "c", "a"].Perm ((Pool.List sampleWorld).map Prod.fst) ∧
    (Pool.StopAll sampleEnv ["b", "c", "a"] sampleWorld).1
      = some ⟨"Some instances did not stop: ErrorCollection(service stuck). ErrorCollection(dialog down)"⟩ ∧
    Pool.List (Pool.StopAll sampleEnv ["b", "c", "a"] sampleWorld).2 = [] ∧
    (stopEachOnce sampleEnv ["b", "c", "a"] sampleWorld).1.length = (Pool.List sampleWorld).length :=
  have h := Pool_StopAll_all sampleEnv sampleWorld ["b", "c", "a"] (by decide) (by decide)
  ⟨by decide, by decide, by decide, h.1, h.2.2.2.2.1⟩

theorem published_append (a b : List Event) :
    published (a ++ b) = published a ++ published b := by
  simp [published, List.filterMap_append]

theorem published_stop_calls (inst : Instance) (calls : List Event)
    (h : ∀ e ∈ calls, Event.stopsPartOf inst e) : published calls = [] := by
  simp only [published, List.filterMap_eq_nil_iff]
  intro e he
  rcases h e he with ⟨d, -, rfl⟩ | ⟨dw, res, -, rfl⟩ | ⟨sv, res, -, rfl⟩ <;> rfl

theorem Pool_stop_published (env : Env) (w : World) (id : ID) :
    published (Pool.stop env w id).2.trace = published w.trace := by
  cases h : mapGet w.servicePool.instances id with
  | none => rw [Pool_stop_absent env w id h]
  | some inst =>
    obtain ⟨calls, hw, -, hcalls⟩ := Pool_stop_present env w id inst h
    rw [hw]
    simp [published_append, published_stop_calls inst calls hcalls]

/-- C5: for every manager state and id, `Manager.Stop(id)`: if the id is present and the
pool teardown returned `nil`, it publishes exactly one event, on topic "Service stop" and
carrying the instance that was registered under the id, and returns `nil`; if the id is
absent it returns the error "service not found" and changes nothing; if the teardown
returned an error it returns that error; in those two cases it publishes nothing.  So an
event is published if and only if the id was present and the teardown returned `nil`. -/
theorem Manager_Stop_publishes (env : Env) (w : World) (id : ID) :
    (∀ inst, Pool.Instance w id = some inst → (Pool.Stop env w id).1 = none →
      (Manager.Stop env w id).1 = none ∧
      (Manager.Stop env w id).2.trace
        = (Pool.Stop env w id).2.trace ++ [Event.publish "Service stop" inst] ∧
      published (Manager.Stop env w id).2.trace
        = published w.trace ++ [("Service stop", inst)]) ∧
    (Pool.Instance w id = none →
      (Manager.Stop env w id).1 = some (errorsNew "service not found") ∧
      (Manager.Stop env w id).2 = w) ∧
    (∀ inst err, Pool.Instance w id = some inst → (Pool.Stop env w id).1 = some err →
      (Manager.Stop env w id).1 = some err ∧
      (Manager.Stop env w id).2 = (Pool.Stop env w id).2 ∧
      published (Manager.Stop env w id).2.trace = published w.trace) ∧
    (published (Manager.Stop env w id).2.trace ≠ published w.trace ↔
      (∃ inst, Pool.Instance w id = some inst) ∧ (Pool.Stop env w id).1 = none) := by
  have hpub := Pool_stop_published env w id
  cases hinst : Pool.Instance w id with
  | none =>
    simp [Manager.Stop, hinst]
  | some inst =>
    cases hstop : Pool.Stop env w id with
    | mk r w1 =>
      have hpub1 : published w1.trace = published w.trace := by
        have : (Pool.stop env w id).2 = w1 := by
          have := congrArg Prod.snd hstop
          simpa [Pool.Stop] using this
        rw [← this]; exact hpub
      cases r with
      | none =>
        have hone : published [Event.publish "Service stop" inst] = [("Service stop", inst)] :=
          rfl
        simp [Manager.Stop, hinst, hstop, World.emit, StopTopic, published_append, hpub1, hone]
      | some err =>
        simp [Manager.Stop, hinst, hstop, hpub1]

theorem Manager_Stop_publishes_sample :
    Manager.Stop sampleEnv sampleWorld "c"
      = (none, { servicePool := ⟨[("a", sampleInstance "a" 1), ("b", sampleInstance "b" 2)]⟩,
                 trace := [Event.discoveryStop ⟨3⟩, Event.dialogWaiterStop ⟨3⟩ none,
                   Event.serviceStop ⟨3⟩ none,
                   Event.publish "Service stop" (sampleInstance "c" 3)],
                 tasks := [] }) ∧
    (Manager.Stop sampleEnv sampleWorld "b").1 = some ⟨"ErrorCollection(service stuck)"⟩ ∧
    published (Manager.Stop sampleEnv sampleWorld "b").2.trace = [] ∧
    ((Manager.Stop sampleEnv sampleWorld "zz").1 = some (errorsNew "service not found") ∧
      (Manager.Stop sampleEnv sampleWorld "zz").2 = sampleWorld) :=
  ⟨by decide, by decide, by decide,
    (Manager_Stop_publishes sampleEnv sampleWorld "zz").2.1 (by decide)⟩

/-- C6: whenever `Manager.Start` returns an error, the pool's table is exactly what it was
before the call, no background task was spawned, and the error is the one the failing setup
step produced in this run: the registry's `ErrUnsupportedServiceType` for an unknown service
type, or the error of the service factory, of the dialog-waiter factory, of the dialog
waiter's `Start`, of the ID generation or of `ServeDialogs`.  An unknown service type always
makes `Start` return `ErrUnsupportedServiceType` without any call being made. -/
theorem Manager_Start_error (env : Env) (w : World) (providerID : Identity)
    (serviceType : String) (options : Options) (err : GoError)
    (h : (Manager.Start env w providerID serviceType options).1.2 = some err) :
    Pool.List (Manager.Start env w providerID serviceType options).2 = Pool.List w ∧
    (Manager.Start env w providerID serviceType options).2.tasks = w.tasks ∧
    ((mapGet env.serviceRegistry.factories serviceType = none ∧
        err = ErrUnsupportedServiceType) ∨
      (∃ f, mapGet env.serviceRegistry.factories serviceType = some f ∧
        env.createService w.trace f options = .error err) ∨
      (∃ t, w.trace <+: t ∧ t <+: (Manager.Start env w providerID serviceType options).2.trace ∧
        env.dialogWaiterFactory t providerID serviceType = .error err) ∨
      (∃ t dw, w.trace <+: t ∧
        t <+: (Manager.Start env w providerID serviceType options).2.trace ∧
        env.dialogWaiterStart t dw = .error err) ∨
      (∃ t, w.trace <+: t ∧ t <+: (Manager.Start env w providerID serviceType options).2.trace ∧
        env.uuidNewV4 t = .error err) ∨
      (∃ t dw dh, w.trace <+: t ∧
        t <+: (Manager.Start env w providerID serviceType options).2.trace ∧
        env.serveDialogs t dw dh = some err)) ∧
    (mapGet env.serviceRegistry.factories serviceType = none →
      Manager.Start env w providerID serviceType options
        = (("", some ErrUnsupportedServiceType), w)) := by
  cases hreg : mapGet env.serviceRegistry.factories serviceType with
  | none =>
    have hS : Manager.Start env w providerID serviceType options
        = (("", some ErrUnsupportedServiceType), w) := by
      simp [Manager.Start, Registry.Create, hreg]
    rw [hS] at h ⊢
    simp only [Option.some.injEq] at h
    exact ⟨rfl, rfl, Or.inl ⟨rfl, h.symm⟩, fun _ => rfl⟩
  | some f =>
    cases hcreate : env.createService w.trace f options with
    | error e1 =>
      have hS : Manager.Start env w providerID serviceType options
          = (("", some e1), w.emit (Event.createService f options)) := by
        simp [Manager.Start, Registry.Create, hreg, hcreate]
      rw [hS] at h ⊢
      simp only [Option.some.injEq] at h
      subst h
      exact ⟨rfl, rfl, Or.inr (Or.inl ⟨f, rfl, hcreate⟩), fun hn => by cases hn⟩
    | ok sp =>
      obtain ⟨service, proposal⟩ := sp
      cases hfac : env.dialogWaiterFactory (w.emit (Event.createService f options)).trace
          providerID serviceType with
      | error e2 =>
        have hS : Manager.Start env w providerID serviceType options
            = (("", some e2), (w.emit (Event.createService f options)).emit
                (Event.dialogWaiterFactory providerID serviceType)) := by
          simp [Manager.Start, Registry.Create, hreg, hcreate, hfac]
        rw [hS] at h ⊢
        simp only [Option.some.injEq] at h
        subst h
        refine ⟨rfl, rfl, Or.inr (Or.inr (Or.inl ⟨_, ?_, ?_, hfac⟩)), fun hn => by cases hn⟩
        · simp [World.emit]
        · simp [World.emit]
      | ok dw =>
        cases hstart : env.dialogWaiterStart ((w.emit (Event.createService f options)).emit
            (Event.dialogWaiterFactory providerID serviceType)).trace dw with
        | error e3 =>
          have hS : Manager.Start env w providerID serviceType options
              = (("", some e3), ((w.emit (Event.createService f options)).emit
                  (Event.dialogWaiterFactory providerID serviceType)).emit
                  (Event.dialogWaiterStart dw)) := by
            simp [Manager.Start, Registry.Create, hreg, hcreate, hfac, hstart]
          rw [hS] at h ⊢
          simp only [Option.some.injEq] at h
          subst h
          refine ⟨rfl, rfl, Or.inr (Or.inr (Or.inr (Or.inl ⟨_, dw, ?_, ?_, hstart⟩))),
            fun hn => by cases hn⟩
          · simp [World.emit]
          · simp [World.emit]
        | ok contact =>
          cases huuid : env.uuidNewV4 (((w.emit (Event.createService f options)).emit
              (Event.dialogWaiterFactory providerID serviceType)).emit
              (Event.dialogWaiterStart dw)).trace with
          | error e4 =>
            have hS : Manager.Start env w providerID serviceType options
                = (("", some e4), (((w.emit (Event.createService f options)).emit
                    (Event.dialogWaiterFactory providerID serviceType)).emit
                    (Event.dialogWaiterStart dw)).emit Event.uuidNewV4) := by
              simp [Manager.Start, Registry.Create, hreg, hcreate, hfac, hstart, generateID,
                huuid]
            rw [hS] at h ⊢
            simp only [Option.some.injEq] at h
            subst h
            refine ⟨rfl, rfl, Or.inr (Or.inr (Or.inr (Or.inr (Or.inl ⟨_, ?_, ?_, huuid⟩)))),
              fun hn => by cases hn⟩
            · simp [World.emit]
            · simp [World.emit]
          | ok uid =>
            cases hserve : env.serveDialogs
                (((((w.emit (Event.createService f options)).emit
                  (Event.dialogWaiterFactory providerID serviceType)).emit
                  (Event.dialogWaiterStart dw)).emit Event.uuidNewV4).emit
                  (Event.dialogHandlerFactory (env.setProviderContact proposal providerID contact)
                    service uid.String)).trace
                dw
                (env.dialogHandlerFactory
                  ((((w.emit (Event.createService f options)).emit
                    (Event.dialogWaiterFactory providerID serviceType)).emit
                    (Event.dialogWaiterStart dw)).emit Event.uuidNewV4).trace
                  (env.setProviderContact proposal providerID contact) service uid.String) with
            | some e5 =>
              have hS : Manager.Start env w providerID serviceType options
                  = ((uid.String, some e5),
                    (((((w.emit (Event.createService f options)).emit
                      (Event.dialogWaiterFactory providerID serviceType)).emit
                      (Event.dialogWaiterStart dw)).emit Event.uuidNewV4).emit
                      (Event.dialogHandlerFactory (env.setProviderContact proposal providerID contact)
                        service uid.String)).emit
                      (Event.serveDialogs dw
                        (env.dialogHandlerFactory
                          ((((w.emit (Event.createService f options)).emit
                            (Event.dialogWaiterFactory providerID serviceType)).emit
                            (Event.dialogWaiterStart dw)).emit Event.uuidNewV4).trace
                          (env.setProviderContact proposal providerID contact) service uid.String))) := by
                simp [Manager.Start, Registry.Create, hreg, hcreate, hfac, hstart, generateID,
                  huuid, hserve]
              rw [hS] at h ⊢
              simp only [Option.some.injEq] at h
              subst h
              refine ⟨rfl, rfl,
                Or.inr (Or.inr (Or.inr (Or.inr (Or.inr ⟨_, dw, _, ?_, ?_, hserve⟩)))),
                fun hn => by cases hn⟩
              · simp [World.emit]
              · simp [World.emit]
            | none =>
              have hS : (Manager.Start env w providerID serviceType options).1.2 = none := by
                simp [Manager.Start, Registry.Create, hreg, hcreate, hfac, hstart, generateID,
                  huuid, hserve]
              rw [hS] at h
              cases h

theorem Manager_Start_error_witness :
    (Manager.Start sampleEnvNoDialogs sampleWorld ⟨"provider"⟩ "openvpn" ⟨"opts"⟩).1.2
      = some ⟨"cannot serve"⟩ ∧
    Pool.List (Manager.Start sampleEnvNoDialogs sampleWorld ⟨"provider"⟩ "openvpn" ⟨"opts"⟩).2
      = Pool.List sampleWorld ∧
    (Manager.Start sampleEnvNoDialogs sampleWorld ⟨"provider"⟩ "openvpn" ⟨"opts"⟩).2.tasks
      = sampleWorld.tasks ∧
    Manager.Start sampleEnv sampleWorld ⟨"provider"⟩ "wireguard" ⟨"opts"⟩
      = (("", some ErrUnsupportedServiceType), sampleWorld) :=
  have h := Manager_Start_error sampleEnvNoDialogs sampleWorld ⟨"provider"⟩ "openvpn" ⟨"opts"⟩
    ⟨"cannot serve"⟩ (by decide)
  ⟨by decide, h.1, h.2.1, by decide⟩

theorem UUID_String_ne_empty (u : UUID) : u.String ≠ "" := by
  intro h
  have h2 := congrArg String.length h
  simp [UUID.String, String.length] at h2

/-- C7, amended: when every setup step succeeds (the registry knows the type and its factory,
the dialog-waiter factory, the dialog waiter's `Start`, the ID generation and `ServeDialogs`
each succeed at the history they are called with), `Manager.Start` returns a `nil` error and a
non-empty ID, and at that moment, the spawned task not having taken a step, the pool maps the
returned ID to an instance whose id is that ID, whose state is `Starting`, and which carries
the given options and the service, proposal, dialog waiter and discovery handle created in
this call; every other id is mapped as before; provided the returned ID was not already a key
of the pool, the table is the old table plus this one entry, so it holds exactly one more
entry than before; on a fresh manager `List()` shows exactly this one instance.  Exactly one
task is spawned. -/
theorem Manager_Start_registers (env : Env) (w : World) (providerID : Identity)
    (serviceType : String) (options : Options) (f : Nat) (service : RunnableService)
    (proposal proposal2 : ServiceProposal) (dw : DialogWaiter) (contact : Contact) (uid : UUID)
    (dh : DialogHandler) (discovery : Discovery) (inst : Instance)
    (hreg : mapGet env.serviceRegistry.factories serviceType = some f)
    (hcreate : env.createService w.trace f options = .ok (service, proposal))
    (hfac : env.dialogWaiterFactory (w.trace ++ [Event.createService f options])
      providerID serviceType = .ok dw)
    (hstart : env.dialogWaiterStart
      (w.trace ++ [Event.createService f options, Event.dialogWaiterFactory providerID serviceType])
      dw = .ok contact)
    (hproposal : proposal2 = env.setProviderContact proposal providerID contact)
    (huuid : env.uuidNewV4
      (w.trace ++ [Event.createService f options, Event.dialogWaiterFactory providerID serviceType,
        Event.dialogWaiterStart dw]) = .ok uid)
    (hdh : dh = env.dialogHandlerFactory
      (w.trace ++ [Event.createService f options, Event.dialogWaiterFactory providerID serviceType,
        Event.dialogWaiterStart dw, Event.uuidNewV4])
      proposal2 service uid.String)
    (hserve : env.serveDialogs
      (w.trace ++ [Event.createService f options, Event.dialogWaiterFactory providerID serviceType,
        Event.dialogWaiterStart dw, Event.uuidNewV4,
        Event.dialogHandlerFactory proposal2 service uid.String])
      dw dh = none)
    (hdiscovery : discovery = env.discoveryFactory
      (w.trace ++ [Event.createService f options, Event.dialogWaiterFactory providerID serviceType,
        Event.dialogWaiterStart dw, Event.uuidNewV4,
        Event.dialogHandlerFactory proposal2 service uid.String, Event.serveDialogs dw dh]))
    (hinst : inst = { id := uid.String, state := State.Starting, options := options,
                      service := some service, proposal := proposal2,
                      dialogWaiter := some dw, discovery := some discovery }) :
    (Manager.Start env w providerID serviceType options).1 = (uid.String, none) ∧
    uid.String ≠ "" ∧
    Pool.Instance (Manager.Start env w providerID serviceType options).2 uid.String
      = some inst ∧
    (∀ other, other ≠ uid.String →
      Pool.Instance (Manager.Start env w providerID serviceType options).2 other
        = Pool.Instance w other) ∧
    (Pool.Instance w uid.String = none →
      Pool.List (Manager.Start env w providerID serviceType options).2
        = Pool.List w ++ [(uid.String, inst)] ∧
      (Pool.List (Manager.Start env w providerID serviceType options).2).length
        = (Pool.List w).length + 1) ∧
    (Pool.List w = [] →
      Manager.List (Manager.Start env w providerID serviceType options).2
        = [(uid.String, inst)]) ∧
    (Manager.Start env w providerID serviceType options).2.tasks
      = w.tasks ++ [⟨inst, providerID, service, discovery⟩] ∧
    (Manager.Start env w providerID serviceType options).2.trace
      = w.trace ++ [Event.createService f options, Event.dialogWaiterFactory providerID serviceType,
          Event.dialogWaiterStart dw, Event.uuidNewV4,
          Event.dialogHandlerFactory proposal2 service uid.String, Event.serveDialogs dw dh,
          Event.discoveryFactory, Event.discoveryStart discovery providerID proposal2] := by
  have hS : Manager.Start env w providerID serviceType options
      = ((uid.String, none),
         { servicePool := ⟨mapSet w.servicePool.instances uid.String inst⟩,
            trace := w.trace ++ [Event.createService f options, Event.dialogWaiterFactory providerID serviceType,
              Event.dialogWaiterStart dw, Event.uuidNewV4,
              Event.dialogHandlerFactory proposal2 service uid.String, Event.serveDialogs dw dh,
              Event.discoveryFactory, Event.discoveryStart discovery providerID proposal2],
            tasks := w.tasks ++ [⟨inst, providerID, service, discovery⟩] }) := by
    subst hproposal hdh hdiscovery hinst
    simp [Manager.Start, Registry.Create, generateID, World.emit, Pool.Add, hreg, hcreate,
      hfac, hstart, huuid, hserve]
  rw [hS]
  refine ⟨rfl, UUID_String_ne_empty uid, ?_, ?_, ?_, ?_, rfl, rfl⟩
  · exact mapGet_mapSet_self _ _ _
  · intro other hne
    exact mapGet_mapSet_of_ne _ _ _ _ hne
  · intro hfresh
    have hdel : mapDelete w.servicePool.instances uid.String = w.servicePool.instances :=
      mapDelete_of_absent _ _ hfresh
    simp [Pool.List, mapSet, hdel]
  · intro hempty
    simp only [Pool.List] at hempty
    simp [Manager.List, Pool.List, mapSet, mapDelete, hempty]

theorem Manager_Start_registers_witness :
    sampleUUID.String = "01020304-0506-0708-090a-0b0c0d0e0f10" ∧
    (Manager.Start sampleEnv sampleWorld ⟨"provider"⟩ "openvpn" ⟨"opts"⟩).1
      = (sampleUUID.String, none) ∧
    Pool.Instance (Manager.Start sampleEnv sampleWorld ⟨"provider"⟩ "openvpn" ⟨"opts"⟩).2
      sampleUUID.String = some sampleStarted ∧
    (Pool.List (Manager.Start sampleEnv sampleWorld ⟨"provider"⟩ "openvpn" ⟨"opts"⟩).2).length
      = (Pool.List sampleWorld).length + 1 :=
  have h := Manager_Start_registers sampleEnv sampleWorld ⟨"provider"⟩ "openvpn" ⟨"opts"⟩ 0
    ⟨7⟩ ⟨5, "", "openvpn"⟩ ⟨5, "provider", "contact"⟩ ⟨8⟩ ⟨"contact"⟩ sampleUUID ⟨9⟩ ⟨10⟩
    sampleStarted (by decide) rfl rfl rfl rfl rfl rfl rfl rfl rfl
  ⟨by decide, h.1, h.2.2.1, (h.2.2.2.2.1 (by decide)).2⟩

/-- C7 as stated fails: with every setup step succeeding, `Manager.Start` on a pool that
already holds an instance under the generated ID returns that ID and a `nil` error, and
`Pool.Add` replaces the entry, so the pool holds as many entries as before, not one more. -/
theorem Manager_Start_registers_counterexample :
    (Manager.Start sampleEnv sampleWorldTaken ⟨"provider"⟩ "openvpn" ⟨"opts"⟩).1
      = (sampleUUID.String, none) ∧
    Pool.Instance sampleWorldTaken sampleUUID.String
      = some (sampleInstance sampleUUID.String 2) ∧
    Pool.Instance (Manager.Start sampleEnv sampleWorldTaken ⟨"provider"⟩ "openvpn" ⟨"opts"⟩).2
      sampleUUID.String = some sampleStarted ∧
    (Pool.List sampleWorldTaken).length = 2 ∧
    (Pool.List (Manager.Start sampleEnv sampleWorldTaken ⟨"provider"⟩ "openvpn" ⟨"opts"⟩).2).length
      = 2 ∧
    ¬ ((Pool.List
          (Manager.Start sampleEnv sampleWorldTaken ⟨"provider"⟩ "openvpn" ⟨"opts"⟩).2).length
        = (Pool.List sampleWorldTaken).length + 1) := by
  decide

/-- The `Stop` calls of one teardown are those on the sub-resources of the instance, each
once. -/
theorem Pool_stop_parts (env : Env) (w : World) (id : ID) (inst : Instance)
    (h : mapGet w.servicePool.instances id = some inst) :
    ∃ calls : List Event,
      (Pool.stop env w id).2.trace = w.trace ++ calls ∧
      calls.filterMap Event.stopped = inst.parts := by
  refine ⟨List.drop w.trace.length (Pool.stop env w id).2.trace, ?_, ?_⟩ <;>
    obtain ⟨iid, st, opts, sv, prop, dw, dc⟩ := inst <;>
    cases dc <;> cases dw <;> cases sv <;>
    simp only [Pool.stop, h, World.emit, Pool.del, List.append_assoc, List.drop_left,
      List.drop_length, List.append_nil, List.filterMap_nil, List.singleton_append,
      List.nil_append] <;>
    simp [Event.stopped, Instance.parts]

theorem mapDelete_cons_self (rest : List (ID × Instance)) (id : ID) (v : Instance) :
    mapDelete ((id, v) :: rest) id = mapDelete rest id := by
  simp [mapDelete, List.filter_cons]

theorem mapDelete_cons_of_ne (rest : List (ID × Instance)) (k id : ID) (v : Instance)
    (h : k ≠ id) : mapDelete ((k, v) :: rest) id = (k, v) :: mapDelete rest id := by
  simp [mapDelete, List.filter_cons, h]

theorem count_parts_delete_le (m : List (ID × Instance)) (id : ID) (p : Part) :
    List.count p ((mapDelete m id).flatMap (fun e => e.2.parts))
      ≤ List.count p (m.flatMap (fun e => e.2.parts)) := by
  induction m with
  | nil => simp [mapDelete]
  | cons e rest ih =>
    obtain ⟨k, v⟩ := e
    by_cases hk : k = id
    · subst hk
      rw [mapDelete_cons_self]
      simp only [List.flatMap_cons, List.count_append]
      omega
    · rw [mapDelete_cons_of_ne _ _ _ _ hk]
      simp only [List.flatMap_cons, List.count_append]
      omega

theorem count_parts_delete (m : List (ID × Instance)) (id : ID) (inst : Instance) (p : Part)
    (h : mapGet m id = some inst) :
    List.count p inst.parts + List.count p ((mapDelete m id).flatMap (fun e => e.2.parts))
      ≤ List.count p (m.flatMap (fun e => e.2.parts)) := by
  induction m with
  | nil => simp [mapGet] at h
  | cons e rest ih =>
    obtain ⟨k, v⟩ := e
    by_cases hk : k = id
    · subst hk
      simp only [mapGet, if_true, Option.some.injEq] at h
      subst h
      have hle := count_parts_delete_le rest k p
      rw [mapDelete_cons_self]
      simp only [List.flatMap_cons, List.count_append]
      omega
    · simp only [mapGet, hk, if_false] at h
      have ih2 := ih h
      rw [mapDelete_cons_of_ne _ _ _ _ hk]
      simp only [List.flatMap_cons, List.count_append]
      omega

theorem StoppedWithin_refl (w : World) : StoppedWithin w w :=
  ⟨[], by simp, by simp⟩

theorem Pool_stop_within (env : Env) (w0 w : World) (id : ID) (h : StoppedWithin w0 w) :
    StoppedWithin w0 (Pool.stop env w id).2 := by
  cases hget : mapGet w.servicePool.instances id with
  | none =>
    rw [Pool_stop_absent env w id hget]
    exact h
  | some inst =>
    obtain ⟨calls, ht, hb⟩ := h
    obtain ⟨made, hmade, hparts⟩ := Pool_stop_parts env w id inst hget
    refine ⟨calls ++ made, by rw [hmade, ht, List.append_assoc], ?_⟩
    intro p
    have hdel := count_parts_delete w.servicePool.instances id inst p hget
    have hp := hb p
    simp only [partsOfPool, (Pool_stop_table env w id).1, List.filterMap_append,
      List.count_append, hparts] at hp ⊢
    omega

theorem Pool_stopRange_within (env : Env) (w0 : World) (order : List ID) :
    ∀ s : ErrorCollection × World, StoppedWithin w0 s.2 →
      StoppedWithin w0 (Pool.stopRange env order s).2 := by
  induction order with
  | nil => intro s h; exact h
  | cons id rest ih =>
    intro s h
    cases hget : mapGet s.2.servicePool.instances id with
    | none =>
      simp only [Pool.stopRange, hget]
      exact ih s h
    | some inst =>
      simp only [Pool.stopRange, hget]
      exact ih _ (Pool_stop_within env w0 s.2 id h)

theorem runPoolCalls_within (env : Env) (w0 : World) (calls : List PoolCall) :
    ∀ w : World, StoppedWithin w0 w → StoppedWithin w0 (runPoolCalls env calls w) := by
  induction calls with
  | nil => intro w h; exact h
  | cons c rest ih =>
    intro w h
    cases c with
    | Stop id =>
      exact ih _ (Pool_stop_within env w0 w id h)
    | StopAll order =>
      exact ih _ (Pool_stopRange_within env w0 order (⟨[]⟩, w) h)

/-- C15: for every pool and id, a second `Pool.Stop(id)` after a first one returns
`ErrNoSuchInstance` and leaves the world exactly as the first call left it: the table is
unchanged and no call is made, so no `Stop` reaches a discovery handle, a dialog waiter or a
service a second time.  Over any sequence of `Stop` and `StopAll` calls, each sub-resource is
stopped at most as often as the table held it at the start: at most once when no two
instances share a sub-resource. -/
theorem Pool_Stop_twice (env : Env) :
    (∀ (w : World) (id : ID),
      Pool.Stop env (Pool.Stop env w id).2 id
        = (some ErrNoSuchInstance, (Pool.Stop env w id).2)) ∧
    (∀ (calls : List PoolCall) (w : World),
      ∃ made : List Event, (runPoolCalls env calls w).trace = w.trace ++ made ∧
        (∀ p : Part, List.count p (made.filterMap Event.stopped)
          ≤ List.count p (partsOfPool w)) ∧
        ((partsOfPool w).Nodup →
          (made.filterMap Event.stopped).Nodup ∧
          ∀ p : Part, List.count p (made.filterMap Event.stopped) ≤ 1)) := by
  refine ⟨?_, ?_⟩
  · intro w id
    have hgone : mapGet (Pool.stop env w id).2.servicePool.instances id = none := by
      rw [(Pool_stop_table env w id).1]
      exact mapGet_mapDelete_self _ _
    exact Pool_stop_absent env _ id hgone
  · intro calls w
    obtain ⟨made, ht, hb⟩ := runPoolCalls_within env w calls w (StoppedWithin_refl w)
    have hle : ∀ p : Part, List.count p (made.filterMap Event.stopped)
        ≤ List.count p (partsOfPool w) := fun p => by
      have := hb p
      omega
    refine ⟨made, ht, hle, ?_⟩
    intro hnd
    have hone : ∀ p : Part, List.count p (made.filterMap Event.stopped) ≤ 1 := fun p =>
      le_trans (hle p) (List.nodup_iff_count_le_one.mp hnd p)
    exact ⟨List.nodup_iff_count_le_one.mpr hone, hone⟩

theorem Pool_Stop_twice_sample :
    (partsOfPool sampleWorld).Nodup ∧
    (runPoolCalls sampleEnv
      [PoolCall.Stop "a", PoolCall.Stop "a", PoolCall.StopAll ["c", "a", "b"],
        PoolCall.Stop "b"] sampleWorld).trace
      = [Event.discoveryStop ⟨1⟩, Event.dialogWaiterStop ⟨1⟩ (some ⟨"dialog down"⟩),
         Event.serviceStop ⟨1⟩ none, Event.discoveryStop ⟨3⟩, Event.dialogWaiterStop ⟨3⟩ none,
         Event.serviceStop ⟨3⟩ none, Event.discoveryStop ⟨2⟩, Event.dialogWaiterStop ⟨2⟩ none,
         Event.serviceStop ⟨2⟩ (some ⟨"service stuck"⟩)] ∧
    Pool.Stop sampleEnv (Pool.Stop sampleEnv sampleWorld "a").2 "a"
      = (some ErrNoSuchInstance, (Pool.Stop sampleEnv sampleWorld "a").2) :=
  ⟨by decide, by decide, (Pool_Stop_twice sampleEnv).1 sampleWorld "a"⟩

/-- What `Start` leaves behind: either it returned an error and spawned nothing, or it spawned
exactly one goroutine, whose instance is in state `Starting` and is the one registered in the
pool under the returned ID. -/
theorem Manager_Start_outcome (env : Env) (w : World) (providerID : Identity)
    (serviceType : String) (options : Options) :
    ((Manager.Start env w providerID serviceType options).2.tasks = w.tasks ∧
      (Manager.Start env w providerID serviceType options).1.2 ≠ none) ∨
    ∃ task : Task,
      (Manager.Start env w providerID serviceType options).2.tasks = w.tasks ++ [task] ∧
      task.inst.state = State.Starting ∧
      task.providerID = providerID ∧
      task.inst.service = some task.service ∧
      task.inst.discovery = some task.discovery ∧
      (Manager.Start env w providerID serviceType options).1 = (task.inst.id, none) ∧
      Pool.Instance (Manager.Start env w providerID serviceType options).2 task.inst.id
        = some task.inst := by
  cases hreg : mapGet env.serviceRegistry.factories serviceType with
  | none =>
    exact Or.inl (by simp [Manager.Start, Registry.Create, hreg])
  | some f =>
    cases hcreate : env.createService w.trace f options with
    | error e1 =>
      exact Or.inl (by simp [Manager.Start, Registry.Create, hreg, hcreate, World.emit])
    | ok sp =>
      obtain ⟨service, proposal⟩ := sp
      cases hfac : env.dialogWaiterFactory (w.trace ++ [Event.createService f options])
          providerID serviceType with
      | error e2 =>
        exact Or.inl (by
          simp [Manager.Start, Registry.Create, hreg, hcreate, World.emit, hfac])
      | ok dw =>
        cases hstart : env.dialogWaiterStart (w.trace ++ [Event.createService f options,
            Event.dialogWaiterFactory providerID serviceType]) dw with
        | error e3 =>
          exact Or.inl (by
            simp [Manager.Start, Registry.Create, hreg, hcreate, World.emit, hfac, hstart])
        | ok contact =>
          cases huuid : env.uuidNewV4 (w.trace ++ [Event.createService f options,
              Event.dialogWaiterFactory providerID serviceType,
              Event.dialogWaiterStart dw]) with
          | error e4 =>
            exact Or.inl (by
              simp [Manager.Start, Registry.Create, hreg, hcreate, World.emit, hfac, hstart,
                generateID, huuid])
          | ok uid =>
            cases hserve : env.serveDialogs (w.trace ++ [Event.createService f options,
                Event.dialogWaiterFactory providerID serviceType, Event.dialogWaiterStart dw,
                Event.uuidNewV4,
                Event.dialogHandlerFactory
                  (env.setProviderContact proposal providerID contact) service uid.String])
                dw
                (env.dialogHandlerFactory (w.trace ++ [Event.createService f options,
                  Event.dialogWaiterFactory providerID serviceType,
                  Event.dialogWaiterStart dw, Event.uuidNewV4])
                  (env.setProviderContact proposal providerID contact) service uid.String) with
            | some e5 =>
              exact Or.inl (by
                simp [Manager.Start, Registry.Create, hreg, hcreate, World.emit, hfac, hstart,
                  generateID, huuid, hserve])
            | none =>
              refine Or.inr ?_
              simp [Manager.Start, Registry.Create, hreg, hcreate, World.emit, hfac, hstart,
                generateID, huuid, hserve, Pool.Add, Pool.Instance, mapGet_mapSet_self]

/-- Shape of every run of the goroutine, whatever the rest of the program does meanwhile:
its position, and its captured variables, of which only the state of the instance changes. -/
theorem TaskState_run_shape (env : Env) (others : Nat → World → World) (task : Task)
    (w : World) (h : task.inst.state = State.Starting) :
    ∀ n, (TaskState.run env others n (Task.start task, w)).1.pc = pcAfter n ∧
      (TaskState.run env others n (Task.start task, w)).1.task
        = { task with inst := { task.inst with state := stateAfter n } } := by
  intro n
  induction n with
  | zero =>
    refine ⟨rfl, ?_⟩
    obtain ⟨inst, p, sv, d⟩ := task
    obtain ⟨iid, st, opts, isv, prop, dw, dc⟩ := inst
    simp only at h
    subst h
    rfl
  | succ n ih =>
    have hstep : TaskState.run env others (n + 1) (Task.start task, w)
        = TaskState.step env (TaskState.run env others n (Task.start task, w)).1
            (others n (TaskState.run env others n (Task.start task, w)).2) := rfl
    rw [hstep]
    generalize TaskState.run env others n (Task.start task, w) = r at ih ⊢
    obtain ⟨⟨pc, tk, se, so⟩, w1⟩ := r
    obtain ⟨hpc, htask⟩ := ih
    simp only at hpc htask
    subst hpc htask
    rcases n with _ | _ | _ | _ | _ | k <;> simp [TaskState.step, pcAfter, stateAfter]

theorem mapGet_setState (m : List (ID × Instance)) (id : ID) (inst inst2 : Instance)
    (h : mapGet m id = some inst) :
    mapGet (m.map (fun e => if e.2 = inst then (e.1, inst2) else e)) id = some inst2 := by
  induction m with
  | nil => simp [mapGet] at h
  | cons e rest ih =>
    obtain ⟨k, v⟩ := e
    by_cases hv : v = inst
    · have hmap : List.map (fun e : ID × Instance => if e.2 = inst then (e.1, inst2) else e)
          ((k, v) :: rest)
          = (k, inst2) :: List.map (fun e => if e.2 = inst then (e.1, inst2) else e) rest := by
        simp [hv]
      rw [hmap]
      by_cases hk : k = id
      · simp [mapGet, hk]
      · simp only [mapGet, hk, if_false] at h ⊢
        exact ih h
    · have hmap : List.map (fun e : ID × Instance => if e.2 = inst then (e.1, inst2) else e)
          ((k, v) :: rest)
          = (k, v) :: List.map (fun e => if e.2 = inst then (e.1, inst2) else e) rest := by
        simp [hv]
      rw [hmap]
      by_cases hk : k = id
      · simp only [mapGet, hk, if_true, Option.some.injEq] at h
        exact absurd h hv
      · simp only [mapGet, hk, if_false] at h ⊢
        exact ih h

/-- Up to the teardown, a statement of the goroutine keeps the table's entry for the instance
equal to the instance struct. -/
theorem TaskState_step_view (env : Env) (t : TaskState) (w : World)
    (hpc : t.pc = TaskPc.setRunning ∨ t.pc = TaskPc.serve ∨ t.pc = TaskPc.setNotRunning)
    (h : Pool.Instance w t.task.inst.id = some t.task.inst) :
    Pool.Instance (TaskState.step env t w).2 (TaskState.step env t w).1.task.inst.id
      = some (TaskState.step env t w).1.task.inst := by
  rcases hpc with hpc | hpc | hpc
  · simp only [TaskState.step, hpc, Pool.Instance, setStateInPool]
    exact mapGet_setState _ _ _ _ h
  · simpa [TaskState.step, hpc, Pool.Instance, World.emit] using h
  · simp only [TaskState.step, hpc, Pool.Instance, setStateInPool]
    exact mapGet_setState _ _ _ _ h

theorem stateAfter_rank_mono (n m : Nat) (h : n ≤ m) :
    (stateAfter n).rank ≤ (stateAfter m).rank := by
  unfold stateAfter
  split_ifs <;> simp [State.rank] <;> omega

/-- C13: along every run of an instance's lifecycle, registration by `Start` followed by the
statements of its goroutine with anything else happening in between, the state of the instance
is `Starting` at registration, `Running` after the first statement and `NotRunning` from the
third on, whatever the serve loop returns; so no statement moves it back to an earlier state.
While nothing else runs, the table shows the same state until the teardown removes the
instance. -/
theorem Instance_state_advances (env : Env) (w : World) (providerID : Identity)
    (serviceType : String) (options : Options) (task : Task)
    (hspawn : (Manager.Start env w providerID serviceType options).2.tasks
      = w.tasks ++ [task]) :
    task.inst.state = State.Starting ∧
    Pool.Instance (Manager.Start env w providerID serviceType options).2 task.inst.id
      = some task.inst ∧
    (∀ (others : Nat → World → World) (n : Nat),
      (TaskState.run env others n
        (Task.start task, (Manager.Start env w providerID serviceType options).2)).1.task.inst.state
        = if n = 0 then State.Starting else if n ≤ 2 then State.Running
          else State.NotRunning) ∧
    (∀ (others : Nat → World → World) (n m : Nat), n ≤ m →
      (TaskState.run env others n
        (Task.start task, (Manager.Start env w providerID serviceType options).2)).1.task.inst.state.rank
        ≤ (TaskState.run env others m
        (Task.start task, (Manager.Start env w providerID serviceType options).2)).1.task.inst.state.rank) ∧
    (∀ n, n ≤ 3 →
      Pool.Instance (TaskState.run env quiet n
        (Task.start task, (Manager.Start env w providerID serviceType options).2)).2 task.inst.id
        = some (TaskState.run env quiet n
          (Task.start task, (Manager.Start env w providerID serviceType options).2)).1.task.inst) := by
  have hout := Manager_Start_outcome env w providerID serviceType options
  rcases hout with ⟨hsame, -⟩ | ⟨task2, htasks, hstate, -, -, -, -, hview⟩
  · rw [hsame] at hspawn
    have := congrArg List.length hspawn
    simp at this
  · rw [htasks] at hspawn
    have heq : task2 = task := by
      have := List.append_cancel_left hspawn
      simpa using this
    subst heq
    have hshape := fun others =>
      TaskState_run_shape env others task2
        (Manager.Start env w providerID serviceType options).2 hstate
    refine ⟨hstate, hview, ?_, ?_, ?_⟩
    · intro others n
      rw [(hshape others n).2]
      rfl
    · intro others n m hnm
      rw [(hshape others n).2, (hshape others m).2]
      exact stateAfter_rank_mono n m hnm
    · intro n hn
      induction n with
      | zero => exact hview
      | succ k ih =>
        have ihk := ih (Nat.le_of_succ_le hn)
        have hpc := (hshape quiet k).1
        have hid : (TaskState.run env quiet k
            (Task.start task2, (Manager.Start env w providerID serviceType options).2)).1.task.inst.id
            = task2.inst.id := by
          rw [(hshape quiet k).2]
        have hstep := TaskState_step_view env
          (TaskState.run env quiet k
            (Task.start task2, (Manager.Start env w providerID serviceType options).2)).1
          (TaskState.run env quiet k
            (Task.start task2, (Manager.Start env w providerID serviceType options).2)).2
          (by
            rw [hpc]
            rcases k with _ | _ | _ | k
            · exact Or.inl rfl
            · exact Or.inr (Or.inl rfl)
            · exact Or.inr (Or.inr rfl)
            · omega)
          (by rw [hid]; exact ihk)
        have hid2 : (TaskState.run env quiet (k + 1)
            (Task.start task2, (Manager.Start env w providerID serviceType options).2)).1.task.inst.id
            = task2.inst.id := by
          rw [(hshape quiet (k + 1)).2]
        have hrun : TaskState.run env quiet (k + 1)
            (Task.start task2, (Manager.Start env w providerID serviceType options).2)
            = TaskState.step env
              (TaskState.run env quiet k
                (Task.start task2, (Manager.Start env w providerID serviceType options).2)).1
              (TaskState.run env quiet k
                (Task.start task2, (Manager.Start env w providerID serviceType options).2)).2 :=
          rfl
        rw [← hid2, hrun]
        exact hstep

theorem Instance_state_advances_witness :
    (Manager.Start sampleEnv sampleWorld ⟨"provider"⟩ "openvpn" ⟨"opts"⟩).2.tasks
      = sampleWorld.tasks ++ [sampleTask] ∧
    sampleTask.inst.state = State.Starting ∧
    (List.range 7).map (fun n => (TaskState.run sampleEnv quiet n
      (Task.start sampleTask,
        (Manager.Start sampleEnv sampleWorld ⟨"provider"⟩ "openvpn"
          ⟨"opts"⟩).2)).1.task.inst.state)
      = [State.Starting, State.Running, State.Running, State.NotRunning, State.NotRunning,
         State.NotRunning, State.NotRunning] :=
  ⟨by decide,
    (Instance_state_advances sampleEnv sampleWorld ⟨"provider"⟩ "openvpn" ⟨"opts"⟩ sampleTask
      (by decide)).1,
    by decide⟩

theorem published_serve_wait (t : List Event) (s : RunnableService) (p : Identity)
    (d : Discovery) :
    published (t ++ [Event.serve s p]) = published t ∧
    published (t ++ [Event.discoveryWait d]) = published t := by
  simp [published_append, published]

theorem TaskState_run_done (env : Env) (s : TaskState × World) (k : Nat)
    (h : (TaskState.run env quiet k s).1.pc = TaskPc.done) :
    ∀ n, k ≤ n → TaskState.run env quiet n s = TaskState.run env quiet k s := by
  intro n hn
  induction n with
  | zero =>
    have : k = 0 := Nat.le_zero.mp hn
    subst this
    rfl
  | succ m ih =>
    by_cases hk : k = m + 1
    · subst hk
      rfl
    · have hm : k ≤ m := by omega
      have hstep : TaskState.run env quiet (m + 1) s
          = TaskState.step env (TaskState.run env quiet m s).1
              (TaskState.run env quiet m s).2 := rfl
      rw [hstep, ih hm]
      simp only [TaskState.step, h]

/-- C14: in the goroutine spawned by `Start`, from the moment the serve loop returns, with an
error or with `nil`, and while nothing else runs: the next statement sets the state to
`NotRunning`, the one after it is `Pool.Stop` for the ID of this instance, the one after that
waits on discovery, and then the goroutine has ended; from then on the ID is not in the pool.
The goroutine publishes nothing, and what it does is the same whatever the serve loop
returned and whatever its two error variables hold: neither error reaches a caller. -/
theorem Task_after_serve (env : Env) (t : TaskState) (w : World) (h : t.pc = TaskPc.serve) :
    (TaskState.run env quiet 1 (t, w)).1.pc = TaskPc.setNotRunning ∧
    (TaskState.run env quiet 1 (t, w)).1.serveErr
      = env.serve w.trace t.task.service t.task.providerID ∧
    (TaskState.run env quiet 1 (t, w)).2
      = w.emit (Event.serve t.task.service t.task.providerID) ∧
    (TaskState.run env quiet 2 (t, w)).1.pc = TaskPc.stop ∧
    (TaskState.run env quiet 2 (t, w)).1.task.inst.state = State.NotRunning ∧
    (TaskState.run env quiet 2 (t, w)).2.trace = (TaskState.run env quiet 1 (t, w)).2.trace ∧
    (TaskState.run env quiet 3 (t, w)).1.pc = TaskPc.wait ∧
    (TaskState.run env quiet 3 (t, w)).2
      = (Pool.Stop env (TaskState.run env quiet 2 (t, w)).2 t.task.inst.id).2 ∧
    (TaskState.run env quiet 3 (t, w)).1.stopErr
      = (Pool.Stop env (TaskState.run env quiet 2 (t, w)).2 t.task.inst.id).1 ∧
    (TaskState.run env quiet 4 (t, w)).1.pc = TaskPc.done ∧
    (TaskState.run env quiet 4 (t, w)).2
      = (TaskState.run env quiet 3 (t, w)).2.emit (Event.discoveryWait t.task.discovery) ∧
    (∀ n, 4 ≤ n → TaskState.run env quiet n (t, w) = (TaskState.run env quiet 4 (t, w))) ∧
    (∀ n, 3 ≤ n → Pool.Instance (TaskState.run env quiet n (t, w)).2 t.task.inst.id = none) ∧
    (∀ n, published (TaskState.run env quiet n (t, w)).2.trace = published w.trace) ∧
    (∀ (f : List Event → RunnableService → Identity → error) (n : Nat),
      (TaskState.run { env with serve := f } quiet n (t, w)).2
        = (TaskState.run env quiet n (t, w)).2 ∧
      (TaskState.run { env with serve := f } quiet n (t, w)).1.pc
        = (TaskState.run env quiet n (t, w)).1.pc) ∧
    (∀ (e1 e2 : error) (n : Nat),
      (TaskState.run env quiet n ({ t with serveErr := e1, stopErr := e2 }, w)).2
        = (TaskState.run env quiet n (t, w)).2 ∧
      (TaskState.run env quiet n ({ t with serveErr := e1, stopErr := e2 }, w)).1.pc
        = (TaskState.run env quiet n (t, w)).1.pc) := by
  obtain ⟨pc, tk, se, so⟩ := t
  simp only at h
  subst h
  have hdone : ∀ (env2 : Env) (t2 : TaskState), t2.pc = TaskPc.serve →
      ∀ n, 4 ≤ n → TaskState.run env2 quiet n (t2, w) = TaskState.run env2 quiet 4 (t2, w) := by
    intro env2 t2 hpc n hn
    obtain ⟨pc2, tk2, se2, so2⟩ := t2
    simp only at hpc
    subst hpc
    exact TaskState_run_done env2
      ({ pc := TaskPc.serve, task := tk2, serveErr := se2, stopErr := so2 }, w) 4 rfl n hn
  have hgone : Pool.Instance (TaskState.run env quiet 3
      ({ pc := TaskPc.serve, task := tk, serveErr := se, stopErr := so }, w)).2 tk.inst.id
      = none := by
    show mapGet (Pool.stop env _ tk.inst.id).2.servicePool.instances tk.inst.id = none
    rw [(Pool_stop_table env _ tk.inst.id).1]
    exact mapGet_mapDelete_self _ _
  have hpub3 : published (TaskState.run env quiet 3
      ({ pc := TaskPc.serve, task := tk, serveErr := se, stopErr := so }, w)).2.trace
      = published w.trace := by
    show published (Pool.stop env _ tk.inst.id).2.trace = published w.trace
    rw [Pool_stop_published]
    exact (published_serve_wait w.trace tk.service tk.providerID tk.discovery).1
  refine ⟨rfl, rfl, rfl, rfl, rfl, rfl, rfl, rfl, rfl, rfl, rfl, hdone env _ rfl, ?_, ?_, ?_, ?_⟩
  · intro n hn
    rcases n with _ | _ | _ | _ | n
    · omega
    · omega
    · omega
    · exact hgone
    · rw [hdone env _ rfl (n + 4) (by omega)]
      exact hgone
  · intro n
    rcases n with _ | _ | _ | _ | n
    · rfl
    · exact (published_serve_wait w.trace tk.service tk.providerID tk.discovery).1
    · exact (published_serve_wait w.trace tk.service tk.providerID tk.discovery).1
    · exact hpub3
    · rw [hdone env _ rfl (n + 4) (by omega)]
      exact ((published_serve_wait _ tk.service tk.providerID tk.discovery).2).trans hpub3
  · intro f n
    rcases n with _ | _ | _ | _ | n
    · exact ⟨rfl, rfl⟩
    · exact ⟨rfl, rfl⟩
    · exact ⟨rfl, rfl⟩
    · exact ⟨rfl, rfl⟩
    · rw [hdone env _ rfl (n + 4) (by omega), hdone { env with serve := f } _ rfl (n + 4)
        (by omega)]
      exact ⟨rfl, rfl⟩
  · intro e1 e2 n
    rcases n with _ | _ | _ | _ | n
    · exact ⟨rfl, rfl⟩
    · exact ⟨rfl, rfl⟩
    · exact ⟨rfl, rfl⟩
    · exact ⟨rfl, rfl⟩
    · rw [hdone env _ rfl (n + 4) (by omega), hdone env _ rfl (n + 4) (by omega)]
      exact ⟨rfl, rfl⟩

theorem Task_after_serve_witness :
    sampleServing.1.pc = TaskPc.serve ∧
    (TaskState.run sampleEnv quiet 4 (sampleServing.1, sampleServing.2)).1.pc = TaskPc.done ∧
    (∀ n, 3 ≤ n →
      Pool.Instance (TaskState.run sampleEnv quiet n (sampleServing.1, sampleServing.2)).2
        sampleServing.1.task.inst.id = none) ∧
    (TaskState.run sampleEnv quiet 4 (sampleServing.1, sampleServing.2)).2.trace
      = sampleStartedWorld.trace ++
        [Event.serve ⟨7⟩ ⟨"provider"⟩, Event.discoveryStop ⟨10⟩,
         Event.dialogWaiterStop ⟨8⟩ none, Event.serviceStop ⟨7⟩ none,
         Event.discoveryWait ⟨10⟩] ∧
    (TaskState.run sampleEnv quiet 4 (sampleServing.1, sampleServing.2)).1.serveErr
      = some ⟨"serve failed"⟩ :=
  have h := Task_after_serve sampleEnv sampleServing.1 sampleServing.2 (by decide)
  ⟨by decide, h.2.2.2.2.2.2.2.2.2.1, h.2.2.2.2.2.2.2.2.2.2.2.2.1, by decide, by decide⟩

end service

namespace session

theorem pinged_append (a b : List Event) : pinged (a ++ b) = pinged a ++ pinged b := by
  simp [pinged, List.filterMap_append]

theorem factoryCalls_append (a b : List Event) :
    factoryCalls (a ++ b) = factoryCalls a ++ factoryCalls b := by
  simp [factoryCalls, List.filterMap_append]

/-- C8: for every session manager, `Create` with a `proposalID` different from the ID of the
current proposal returns `ErrorInvalidProposal` (and the zero session, changing nothing); and
every `Create` that returns an error, which is that mismatch, the error of the ID generator or
the error of the balance-tracker factory, leaves session storage as it was, forwards nothing
to the NAT pinger sink and starts no goroutine. -/
theorem Manager_Create_error (env : Env) (manager : Manager) (w : World)
    (consumerID issuerID : Identity) (proposalID : Int) (config : ServiceConfiguration)
    (requestConfig : RawMessage) :
    (manager.currentProposal.ID ≠ proposalID →
      Manager.Create env manager w consumerID issuerID proposalID config requestConfig
        = ((Session.zero, some ErrorInvalidProposal), w)) ∧
    (∀ err,
      (Manager.Create env manager w consumerID issuerID proposalID config requestConfig).1.2
        = some err →
      (Manager.Create env manager w consumerID issuerID proposalID config requestConfig).2.sessionStorage
        = w.sessionStorage ∧
      pinged (Manager.Create env manager w consumerID issuerID proposalID config
        requestConfig).2.trace = pinged w.trace ∧
      (Manager.Create env manager w consumerID issuerID proposalID config requestConfig).2.tasks
        = w.tasks ∧
      ((manager.currentProposal.ID ≠ proposalID ∧ err = ErrorInvalidProposal) ∨
        (env.generateID w.trace).2 = some err ∨
        env.balanceTrackerFactory (w.trace ++ [Event.generateID, Event.timeNow]) consumerID
          (env.fromAddress manager.currentProposal.ProviderID) issuerID = .error err)) := by
  by_cases hprop : manager.currentProposal.ID = proposalID
  · refine ⟨fun hne => absurd hprop hne, ?_⟩
    intro err h
    cases hgen : (env.generateID w.trace).2 with
    | some e1 =>
      simp [Manager.Create, hprop, hgen] at h
      subst h
      simp [Manager.Create, hprop, hgen, World.emit, pinged_append, pinged]
    | none =>
      cases hbt : env.balanceTrackerFactory (w.trace ++ [Event.generateID, Event.timeNow])
          consumerID (env.fromAddress manager.currentProposal.ProviderID) issuerID with
      | error e2 =>
        simp [Manager.Create, hprop, hgen, World.emit, makeChan, hbt] at h
        subst h
        simp [Manager.Create, hprop, hgen, World.emit, makeChan, hbt, pinged_append, pinged]
      | ok bt =>
        simp [Manager.Create, hprop, hgen, World.emit, makeChan, hbt] at h
  · refine ⟨fun _ => by simp [Manager.Create, hprop], ?_⟩
    intro err h
    simp [Manager.Create, hprop] at h
    subst h
    simp [Manager.Create, hprop]

theorem Manager_Create_error_sample :
    Manager.Create sampleEnv sampleManager sampleWorld ⟨"bob"⟩ ⟨"issuer"⟩ 8 none "rc"
      = ((Session.zero, some ErrorInvalidProposal), sampleWorld) ∧
    (Manager.Create sampleEnvNoTracker sampleManager sampleWorld ⟨"bob"⟩ ⟨"issuer"⟩ 7 none
      "rc").1.2 = some ⟨"no tracker"⟩ ∧
    (Manager.Create sampleEnvNoTracker sampleManager sampleWorld ⟨"bob"⟩ ⟨"issuer"⟩ 7 none
      "rc").2.sessionStorage = sampleWorld.sessionStorage :=
  have h := Manager_Create_error sampleEnvNoTracker sampleManager sampleWorld ⟨"bob"⟩
    ⟨"issuer"⟩ 7 none "rc"
  ⟨(Manager_Create_error sampleEnv sampleManager sampleWorld ⟨"bob"⟩ ⟨"issuer"⟩ 8 none
      "rc").1 (by decide),
    by decide, (h.2 ⟨"no tracker"⟩ (by decide)).1⟩

/-- What a successful `Create` returns and leaves, in one equation. -/
theorem Manager_Create_ok (env : Env) (manager : Manager) (w : World)
    (consumerID issuerID : Identity) (proposalID : Int) (config : ServiceConfiguration)
    (requestConfig : RawMessage) (sid : ID) (bt : BalanceTracker)
    (hprop : manager.currentProposal.ID = proposalID)
    (hgen : env.generateID w.trace = (sid, none))
    (hbt : env.balanceTrackerFactory (w.trace ++ [Event.generateID, Event.timeNow]) consumerID
      (env.fromAddress manager.currentProposal.ProviderID) issuerID = .ok bt) :
    Manager.Create env manager w consumerID issuerID proposalID config requestConfig
      = ((createdSession env manager w consumerID config sid, none),
         { sessionStorage := mapSet w.sessionStorage sid
              (createdSession env manager w consumerID config sid),
            trace := w.trace ++ [Event.generateID, Event.timeNow,
              Event.balanceTrackerFactory consumerID
                (env.fromAddress manager.currentProposal.ProviderID) issuerID,
              Event.natPingerChan requestConfig],
            tasks := w.tasks ++ [Task.stopOnDone (some ⟨w.chans⟩) bt,
              Task.runTracker bt consumerID sid],
            chans := w.chans + 1,
            closed := w.closed }) := by
  simp [Manager.Create, hprop, hgen, World.emit, makeChan, hbt, Storage.Add, createdSession,
    Session.zero]

/-- C9: when `proposalID` matches the current proposal and the ID generator and the
balance-tracker factory both succeed, `Create` returns a `nil` error and a session whose ID is
the generated ID, whose `ConsumerID` and `Config` are the given ones and whose `Last` flag is
false; storage returns that same session for its ID afterwards and every other ID as before;
the balance-tracker factory was called exactly once, with the consumer, the provider identity
derived from the proposal and the issuer; `requestConfig` was forwarded exactly once to the NAT
pinger sink.  Consequently a second successful `Create` with a different generated ID leaves
both sessions retrievable from storage. -/
theorem Manager_Create_success (env : Env) (manager : Manager) (w : World)
    (consumerID issuerID : Identity) (proposalID : Int) (config : ServiceConfiguration)
    (requestConfig : RawMessage) (sid : ID) (bt : BalanceTracker)
    (hprop : manager.currentProposal.ID = proposalID)
    (hgen : env.generateID w.trace = (sid, none))
    (hbt : env.balanceTrackerFactory (w.trace ++ [Event.generateID, Event.timeNow]) consumerID
      (env.fromAddress manager.currentProposal.ProviderID) issuerID = .ok bt) :
    (Manager.Create env manager w consumerID issuerID proposalID config requestConfig).1.2 = none ∧
    (Manager.Create env manager w consumerID issuerID proposalID config requestConfig).1.1.ID = sid ∧
    (Manager.Create env manager w consumerID issuerID proposalID config requestConfig).1.1.ConsumerID
      = consumerID ∧
    (Manager.Create env manager w consumerID issuerID proposalID config requestConfig).1.1.Config = config ∧
    (Manager.Create env manager w consumerID issuerID proposalID config requestConfig).1.1.Last = false ∧
    Storage.Find (Manager.Create env manager w consumerID issuerID proposalID config requestConfig).2 sid
      = some (Manager.Create env manager w consumerID issuerID proposalID config requestConfig).1.1 ∧
    (∀ other, other ≠ sid →
      Storage.Find (Manager.Create env manager w consumerID issuerID proposalID config requestConfig).2 other
        = Storage.Find w other) ∧
    factoryCalls (Manager.Create env manager w consumerID issuerID proposalID config requestConfig).2.trace
      = factoryCalls w.trace
        ++ [(consumerID, env.fromAddress manager.currentProposal.ProviderID, issuerID)] ∧
    pinged (Manager.Create env manager w consumerID issuerID proposalID config requestConfig).2.trace
      = pinged w.trace ++ [requestConfig] ∧
    (∀ (consumer2 issuer2 : Identity) (config2 : ServiceConfiguration) (request2 : RawMessage)
        (sid2 : ID) (bt2 : BalanceTracker), sid2 ≠ sid →
      env.generateID (Manager.Create env manager w consumerID issuerID proposalID config requestConfig).2.trace
        = (sid2, none) →
      env.balanceTrackerFactory
        ((Manager.Create env manager w consumerID issuerID proposalID config requestConfig).2.trace
          ++ [Event.generateID, Event.timeNow]) consumer2
        (env.fromAddress manager.currentProposal.ProviderID) issuer2 = .ok bt2 →
      (Manager.Create env manager
          (Manager.Create env manager w consumerID issuerID proposalID config requestConfig).2
          consumer2 issuer2 proposalID config2 request2).1.2 = none ∧
      Storage.Find (Manager.Create env manager
          (Manager.Create env manager w consumerID issuerID proposalID config requestConfig).2
          consumer2 issuer2 proposalID config2 request2).2 sid
        = some (Manager.Create env manager w consumerID issuerID proposalID config requestConfig).1.1 ∧
      Storage.Find (Manager.Create env manager
          (Manager.Create env manager w consumerID issuerID proposalID config requestConfig).2
          consumer2 issuer2 proposalID config2 request2).2 sid2
        = some (Manager.Create env manager
          (Manager.Create env manager w consumerID issuerID proposalID config requestConfig).2
          consumer2 issuer2 proposalID config2 request2).1.1) := by
  have hS := Manager_Create_ok env manager w consumerID issuerID proposalID config requestConfig
    sid bt hprop hgen hbt
  have hfind : ∀ (w0 : World) (s : Session) (k : ID),
      Storage.Find { w0 with sessionStorage := mapSet w0.sessionStorage k s } k = some s :=
    fun w0 s k => mapGet_mapSet_self _ _ _
  refine ⟨by rw [hS], by rw [hS]; rfl, by rw [hS]; rfl, by rw [hS]; rfl, by rw [hS]; rfl,
    ?_, ?_, ?_, ?_, ?_⟩
  · rw [hS]
    exact mapGet_mapSet_self _ _ _
  · intro other hne
    rw [hS]
    exact mapGet_mapSet_of_ne _ _ _ _ hne
  · rw [hS]
    simp only [factoryCalls_append]
    rfl
  · rw [hS]
    simp only [pinged_append]
    rfl
  · intro consumer2 issuer2 config2 request2 sid2 bt2 hne hgen2 hbt2
    have hS2 := Manager_Create_ok env manager _ consumer2 issuer2 proposalID config2 request2
      sid2 bt2 hprop hgen2 hbt2
    rw [hS2]
    refine ⟨rfl, ?_, mapGet_mapSet_self _ _ _⟩
    simp only [Storage.Find]
    rw [mapGet_mapSet_of_ne _ _ _ _ (Ne.symm hne), hS]
    exact mapGet_mapSet_self _ _ _

theorem Manager_Create_success_witness :
    (Manager.Create sampleEnv sampleManager sampleWorld ⟨"bob"⟩ ⟨"issuer"⟩ 7 (some "cfg")
      "rc").1 = (⟨"first", ⟨"bob"⟩, some "cfg", "svc", 1001, false, some ⟨2⟩⟩, none) ∧
    Storage.Find (Manager.Create sampleEnv sampleManager sampleWorld ⟨"bob"⟩ ⟨"issuer"⟩ 7
      (some "cfg") "rc").2 "first"
      = some (Manager.Create sampleEnv sampleManager sampleWorld ⟨"bob"⟩ ⟨"issuer"⟩ 7
          (some "cfg") "rc").1.1 ∧
    pinged (Manager.Create sampleEnv sampleManager sampleWorld ⟨"bob"⟩ ⟨"issuer"⟩ 7
      (some "cfg") "rc").2.trace = pinged sampleWorld.trace ++ ["rc"] :=
  have h := Manager_Create_success sampleEnv sampleManager sampleWorld ⟨"bob"⟩ ⟨"issuer"⟩ 7
    (some "cfg") "rc" "first" ⟨2⟩ (by decide) (by decide) rfl
  ⟨by decide, h.2.2.2.2.2.1, h.2.2.2.2.2.2.2.2.1⟩

/-- C10: for every storage state, `Destroy(consumerID, sessionID)` returns
`ErrorSessionNotExists` when storage holds no session of that ID, and
`ErrorWrongSessionOwner` when the session exists but its `ConsumerID` differs from
`consumerID`; in both cases nothing changes: storage is as before (the session, if any,
remains), no completion signal is closed, and no call is made, so the NAT event tracker is not
read and no shutdown request is sent. -/
theorem Manager_Destroy_rejected (env : Env) (manager : Manager) (w : World)
    (consumerID : Identity) (sessionID : String) :
    (Storage.Find w sessionID = none →
      (Manager.Destroy env manager w consumerID sessionID).1
        = Outcome.returned (some ErrorSessionNotExists) ∧
      (Manager.Destroy env manager w consumerID sessionID).2 = w) ∧
    (∀ s, Storage.Find w sessionID = some s → s.ConsumerID ≠ consumerID →
      (Manager.Destroy env manager w consumerID sessionID).1
        = Outcome.returned (some ErrorWrongSessionOwner) ∧
      (Manager.Destroy env manager w consumerID sessionID).2 = w ∧
      Storage.Find (Manager.Destroy env manager w consumerID sessionID).2 sessionID = some s) ∧
    ((Storage.Find w sessionID = none ∨
        ∃ s, Storage.Find w sessionID = some s ∧ s.ConsumerID ≠ consumerID) →
      (Manager.Destroy env manager w consumerID sessionID).2.sessionStorage
        = w.sessionStorage ∧
      (Manager.Destroy env manager w consumerID sessionID).2.closed = w.closed ∧
      (Manager.Destroy env manager w consumerID sessionID).2.trace = w.trace) := by
  refine ⟨?_, ?_, ?_⟩
  · intro h
    simp [Manager.Destroy, h]
  · intro s h hne
    simp [Manager.Destroy, h, hne]
  · rintro (h | ⟨s, h, hne⟩)
    · simp [Manager.Destroy, h]
    · simp [Manager.Destroy, h, hne]

theorem Manager_Destroy_rejected_sample :
    Manager.Destroy sampleEnv sampleManager sampleWorld ⟨"alice"⟩ "nope"
      = (Outcome.returned (some ⟨"session does not exists"⟩), sampleWorld) ∧
    Manager.Destroy sampleEnv sampleManager sampleWorld ⟨"mallory"⟩ "s1"
      = (Outcome.returned (some ⟨"wrong session owner"⟩), sampleWorld) ∧
    ((Manager.Destroy sampleEnv sampleManager sampleWorld ⟨"mallory"⟩ "s1").1
        = Outcome.returned (some ErrorWrongSessionOwner) ∧
      (Manager.Destroy sampleEnv sampleManager sampleWorld ⟨"mallory"⟩ "s1").2 = sampleWorld ∧
      Storage.Find (Manager.Destroy sampleEnv sampleManager sampleWorld ⟨"mallory"⟩ "s1").2
        "s1" = some sampleSession) :=
  ⟨by decide, by decide,
    (Manager_Destroy_rejected sampleEnv sampleManager sampleWorld ⟨"mallory"⟩ "s1").2.1
      sampleSession (by decide) (by decide)⟩

theorem sends_append (a b : List Event) : sends (a ++ b) = sends a ++ sends b := by
  simp [sends, List.filterMap_append]

theorem closes_append (a b : List Event) : closes (a ++ b) = closes a ++ closes b := by
  simp [closes, List.filterMap_append]

/-- C11: for every `Destroy` that finds the session and passes the owner check: if the
session is flagged `Last`, a shutdown sink is configured and the last event of the NAT event
tracker has the failure type, exactly one shutdown request is sent, on that sink; in every
other case (not `Last`, no sink, or a last event of any other type) none is sent.  A single
`Destroy` never sends more than one, and it reads the tracker only for a `Last` session with
a sink configured. -/
theorem Manager_Destroy_shutdown (env : Env) (manager : Manager) (w : World)
    (consumerID : Identity) (sessionID : String) (s : Session)
    (hfound : Storage.Find w sessionID = some s) (howner : s.ConsumerID = consumerID) :
    (∀ sink, s.Last = true → manager.lastSessionShutdown = some sink →
      (env.lastEvent w.trace).type = env.FailureEventType →
      sends (Manager.Destroy env manager w consumerID sessionID).2.trace
        = sends w.trace ++ [sink]) ∧
    ((s.Last = false ∨ manager.lastSessionShutdown = none ∨
        (env.lastEvent w.trace).type ≠ env.FailureEventType) →
      sends (Manager.Destroy env manager w consumerID sessionID).2.trace = sends w.trace) ∧
    (∃ l, sends (Manager.Destroy env manager w consumerID sessionID).2.trace
        = sends w.trace ++ l ∧ l.length ≤ 1) ∧
    ((s.Last = false ∨ manager.lastSessionShutdown = none) →
      trackerReads (Manager.Destroy env manager w consumerID sessionID).2.trace
        = trackerReads w.trace) := by
  subst howner
  have hsend : ∀ ch t, sends (Event.send ch :: t) = ch :: sends t := fun _ _ => rfl
  have hread : ∀ t, sends (Event.lastEvent :: t) = sends t := fun _ => rfl
  have hclose : ∀ ch t, sends (Event.close ch :: t) = sends t := fun _ _ => rfl
  have hnil : sends [] = [] := rfl
  cases hL : s.Last <;> cases hS : manager.lastSessionShutdown <;> cases hd : s.done <;>
    by_cases hF : (env.lastEvent w.trace).type = env.FailureEventType <;>
    simp only [Manager.Destroy, hfound, hL, hS, hd, hF, closeChan, Storage.Remove,
      World.emit, ne_eq, not_true_eq_false, if_false, if_true] <;>
    (try split_ifs) <;>
    simp [sends_append, hsend, hread, hclose, hnil, trackerReads, List.countP_append]

theorem Manager_Destroy_shutdown_witness :
    Storage.Find sampleWorld "s1" = some sampleSession ∧
    sends (Manager.Destroy sampleEnv sampleManager sampleWorld ⟨"alice"⟩ "s1").2.trace
      = sends sampleWorld.trace ++ [⟨0⟩] ∧
    (Manager.Destroy sampleEnv sampleManager sampleWorld ⟨"alice"⟩ "s1").2.trace
      = [Event.lastEvent, Event.send ⟨0⟩, Event.close ⟨1⟩] ∧
    (Manager.Destroy sampleEnvNatOk sampleManager sampleWorld ⟨"alice"⟩ "s1").2.trace
      = [Event.lastEvent, Event.close ⟨1⟩] :=
  ⟨by decide,
    (Manager_Destroy_shutdown sampleEnv sampleManager sampleWorld ⟨"alice"⟩ "s1" sampleSession
      (by decide) (by decide)).1 ⟨0⟩ (by decide) (by decide) (by decide),
    by decide, by decide⟩

theorem mapGet_some_mem {κ ν : Type} [DecidableEq κ] (m : List (κ × ν)) (key : κ) (v : ν)
    (h : mapGet m key = some v) : (key, v) ∈ m := by
  induction m with
  | nil => simp [mapGet] at h
  | cons e rest ih =>
    obtain ⟨k, x⟩ := e
    by_cases hk : k = key
    · simp [mapGet, hk] at h
      simp [hk, h]
    · simp [mapGet, hk] at h
      exact List.mem_cons_of_mem _ (ih h)

/-- What a `Destroy` that passes both checks does when the completion signal can be closed:
it makes calls that close nothing, removes the session and closes the signal. -/
theorem Manager_Destroy_proceeds (env : Env) (manager : Manager) (w : World)
    (consumerID : Identity) (sessionID : String) (s : Session) (c : Chan)
    (hfound : Storage.Find w sessionID = some s) (howner : s.ConsumerID = consumerID)
    (hdone : s.done = some c) (hopen : c ∉ w.closed) :
    ∃ extra : List Event, closes extra = [] ∧
      Manager.Destroy env manager w consumerID sessionID
        = (Outcome.returned none,
           { sessionStorage := mapDelete w.sessionStorage sessionID,
             trace := w.trace ++ extra ++ [Event.close c],
             tasks := w.tasks, chans := w.chans, closed := c :: w.closed }) := by
  subst howner
  cases hL : s.Last <;> cases hS : manager.lastSessionShutdown
  case true.some sink =>
    by_cases hF : (env.lastEvent w.trace).type = env.FailureEventType
    · exact ⟨[Event.lastEvent, Event.send sink], rfl, by
        simp [Manager.Destroy, hfound, hL, hS, hdone, hF, closeChan, Storage.Remove,
          World.emit, hopen]⟩
    · exact ⟨[Event.lastEvent], rfl, by
        simp [Manager.Destroy, hfound, hL, hS, hdone, hF, closeChan, Storage.Remove,
          World.emit, hopen]⟩
  all_goals
    exact ⟨[], rfl, by
      simp [Manager.Destroy, hfound, hL, hS, hdone, closeChan, Storage.Remove,
        World.emit, hopen]⟩

/-- A `Destroy` that returns `nil` found the session, passed the owner check and closed a
signal that was open. -/
theorem Manager_Destroy_returned_nil (env : Env) (manager : Manager) (w : World)
    (consumerID : Identity) (sessionID : String)
    (h : (Manager.Destroy env manager w consumerID sessionID).1 = Outcome.returned none) :
    ∃ s c, Storage.Find w sessionID = some s ∧ s.ConsumerID = consumerID ∧
      s.done = some c ∧ c ∉ w.closed := by
  cases hfound : Storage.Find w sessionID with
  | none => simp [Manager.Destroy, hfound] at h
  | some s =>
    by_cases howner : s.ConsumerID = consumerID
    · cases hdone : s.done with
      | none => simp [Manager.Destroy, hfound, howner, hdone, closeChan] at h
      | some c =>
        by_cases hopen : c ∈ w.closed
        · exfalso
          revert h
          cases hL : s.Last <;> cases hS : manager.lastSessionShutdown <;>
            by_cases hF : (env.lastEvent w.trace).type = env.FailureEventType <;>
            simp [Manager.Destroy, hfound, howner, hdone, hL, hS, hF, closeChan,
              Storage.Remove, World.emit, hopen]
        · exact ⟨s, c, rfl, howner, hdone, hopen⟩
    · simp [Manager.Destroy, hfound, howner] at h

theorem World_fresh_sound : World.fresh.Sound := by
  simp [World.Sound, World.fresh, closes]

theorem Sound_of_same (w w2 : World) (hs : w2.sessionStorage = w.sessionStorage)
    (hc : w2.closed = w.closed) (hn : w.chans ≤ w2.chans)
    (ht : closes w2.trace = closes w.trace) (h : w.Sound) : w2.Sound := by
  obtain ⟨h1, h2, h3, h4, h5⟩ := h
  refine ⟨by rw [hs]; exact h1, ?_, ?_, by rw [ht, hc]; exact h4, by rw [hc]; exact h5⟩
  · intro e he
    rw [hs] at he
    obtain ⟨c, hd, hlt, hcl⟩ := h2 e he
    exact ⟨c, hd, lt_of_lt_of_le hlt hn, by rw [hc]; exact hcl⟩
  · intro c hcm
    rw [hc] at hcm
    exact lt_of_lt_of_le (h3 c hcm) hn

theorem Manager_Create_sound (env : Env) (manager : Manager) (w : World)
    (consumerID issuerID : Identity) (proposalID : Int) (config : ServiceConfiguration)
    (requestConfig : RawMessage) (h : w.Sound) :
    (Manager.Create env manager w consumerID issuerID proposalID config requestConfig).2.Sound := by
  by_cases hprop : manager.currentProposal.ID = proposalID
  · cases hgen : env.generateID w.trace with
    | mk sid gerr =>
      cases gerr with
      | some e1 =>
        apply Sound_of_same w _ _ _ _ _ h <;>
          simp [Manager.Create, hprop, hgen, World.emit, closes_append, closes]
      | none =>
        cases hbt : env.balanceTrackerFactory (w.trace ++ [Event.generateID, Event.timeNow])
            consumerID (env.fromAddress manager.currentProposal.ProviderID) issuerID with
        | error e2 =>
          apply Sound_of_same w _ _ _ _ _ h <;>
            simp [Manager.Create, hprop, hgen, World.emit, makeChan, hbt, closes_append,
              closes]
        | ok bt =>
          rw [Manager_Create_ok env manager w consumerID issuerID proposalID config
            requestConfig sid bt hprop hgen hbt]
          obtain ⟨h1, h2, h3, h4, h5⟩ := h
          have hsub : (mapDelete w.sessionStorage sid).Sublist w.sessionStorage :=
            List.filter_sublist _
          refine ⟨?_, ?_, ?_, ?_, h5⟩
          · simp only [mapSet, List.map_append, List.map_cons, List.map_nil]
            refine List.Nodup.append (h1.sublist (hsub.map _)) (List.nodup_singleton _) ?_
            intro x hx hx2
            simp only [List.mem_singleton] at hx2
            subst hx2
            obtain ⟨e, he, hed⟩ := List.mem_map.mp hx
            obtain ⟨c, hd, hlt, -⟩ := h2 e (hsub.subset he)
            rw [hd] at hed
            simp only [createdSession, Option.some.injEq] at hed
            rw [hed] at hlt
            exact lt_irrefl _ hlt
          · intro e he
            simp only [mapSet, List.mem_append, List.mem_singleton] at he
            rcases he with he | he
            · obtain ⟨c, hd, hlt, hcl⟩ := h2 e (hsub.subset he)
              exact ⟨c, hd, Nat.lt_succ_of_lt hlt, hcl⟩
            · subst he
              refine ⟨⟨w.chans⟩, rfl, Nat.lt_succ_self _, ?_⟩
              intro hcm
              exact lt_irrefl _ (h3 _ hcm)
          · intro c hcm
            exact Nat.lt_succ_of_lt (h3 c hcm)
          · simp only [closes_append, h4]
            simp [closes]
  · apply Sound_of_same w _ _ _ _ _ h <;> simp [Manager.Create, hprop]

theorem Manager_Destroy_sound (env : Env) (manager : Manager) (w : World)
    (consumerID : Identity) (sessionID : String) (h : w.Sound) :
    ∃ r, (Manager.Destroy env manager w consumerID sessionID).1 = Outcome.returned r ∧
      (Manager.Destroy env manager w consumerID sessionID).2.Sound := by
  cases hfound : Storage.Find w sessionID with
  | none =>
    exact ⟨some ErrorSessionNotExists, by simp [Manager.Destroy, hfound],
      by simpa [Manager.Destroy, hfound]⟩
  | some s =>
    by_cases howner : s.ConsumerID = consumerID
    · obtain ⟨h1, h2, h3, h4, h5⟩ := h
      have hmem : (sessionID, s) ∈ w.sessionStorage := mapGet_some_mem _ _ _ hfound
      obtain ⟨c, hd, hlt, hcl⟩ := h2 _ hmem
      obtain ⟨extra, hextra, hD⟩ :=
        Manager_Destroy_proceeds env manager w consumerID sessionID s c hfound howner hd hcl
      rw [hD]
      have hsub : (mapDelete w.sessionStorage sessionID).Sublist w.sessionStorage :=
        List.filter_sublist _
      refine ⟨none, rfl, h1.sublist (hsub.map _), ?_, ?_, ?_, ?_⟩
      · intro e he
        obtain ⟨c2, hd2, hlt2, hcl2⟩ := h2 e (hsub.subset he)
        refine ⟨c2, hd2, hlt2, ?_⟩
        intro hin
        rcases List.mem_cons.mp hin with heq | hin2
        · have hkey : e.1 ≠ sessionID := by
            have := (List.mem_filter.mp he).2
            simpa using this
          have hsame : e = (sessionID, s) :=
            List.inj_on_of_nodup_map h1 (hsub.subset he) hmem
              (by
                have hd3 : s.done = some c := hd
                simp only [hd2, hd3, heq])
          exact hkey (by rw [hsame])
        · exact hcl2 hin2
      · intro c2 hin
        rcases List.mem_cons.mp hin with heq | hin2
        · rw [heq]; exact hlt
        · exact h3 c2 hin2
      · simp only [closes_append, hextra, h4, List.reverse_cons, List.append_nil]
        rfl
      · exact List.nodup_cons.mpr ⟨hcl, h5⟩
    · exact ⟨some ErrorWrongSessionOwner, by simp [Manager.Destroy, hfound, howner],
        by simpa [Manager.Destroy, hfound, howner]⟩

theorem runCalls_sound (env : Env) (manager : Manager) (calls : List Call) :
    ∀ w : World, w.Sound → ∃ w2, runCalls env manager calls w = some w2 ∧ w2.Sound := by
  induction calls with
  | nil => intro w h; exact ⟨w, rfl, h⟩
  | cons c rest ih =>
    intro w h
    cases c with
    | Create consumerID issuerID proposalID config requestConfig =>
      simp only [runCalls, Call.run]
      exact ih _ (Manager_Create_sound env manager w consumerID issuerID proposalID config
        requestConfig h)
    | Destroy consumerID sessionID =>
      obtain ⟨r, hr, hs⟩ := Manager_Destroy_sound env manager w consumerID sessionID h
      cases hD : Manager.Destroy env manager w consumerID sessionID with
      | mk o w1 =>
        rw [hD] at hr hs
        simp only at hr hs
        subst hr
        simp only [runCalls, Call.run, hD]
        exact ih _ hs

/-- C12: a `Destroy` that returns `nil` removed the session from storage (a keyed store)
and closed its completion signal, which was open; a second `Destroy` of the same session ID,
by any consumer, then fails with `ErrorSessionNotExists` and changes nothing, so it closes
nothing.  Over every sequence of `Create` and `Destroy` calls on one manager, from a fresh
manager or from any sound world, no call panics and no channel is closed twice: each
completion signal is closed at most once. -/
theorem Manager_Destroy_closes_once (env : Env) (manager : Manager) :
    (∀ (w : World) (consumerID : Identity) (sessionID : String),
      (Manager.Destroy env manager w consumerID sessionID).1 = Outcome.returned none →
      ∃ s c, Storage.Find w sessionID = some s ∧ s.done = some c ∧ c ∉ w.closed ∧
        Storage.Find (Manager.Destroy env manager w consumerID sessionID).2 sessionID = none ∧
        closes (Manager.Destroy env manager w consumerID sessionID).2.trace
          = closes w.trace ++ [c] ∧
        c ∈ (Manager.Destroy env manager w consumerID sessionID).2.closed ∧
        ∀ consumer2, Manager.Destroy env manager
            (Manager.Destroy env manager w consumerID sessionID).2 consumer2 sessionID
          = (Outcome.returned (some ErrorSessionNotExists),
             (Manager.Destroy env manager w consumerID sessionID).2)) ∧
    World.fresh.Sound ∧
    (∀ (calls : List Call) (w : World), w.Sound →
      ∃ w2, runCalls env manager calls w = some w2 ∧ w2.Sound ∧ (closes w2.trace).Nodup ∧
        ∀ c, (closes w2.trace).count c ≤ 1) := by
  refine ⟨?_, World_fresh_sound, ?_⟩
  · intro w consumerID sessionID h
    obtain ⟨s, c, hfound, howner, hdone, hopen⟩ :=
      Manager_Destroy_returned_nil env manager w consumerID sessionID h
    obtain ⟨extra, hextra, hD⟩ :=
      Manager_Destroy_proceeds env manager w consumerID sessionID s c hfound howner hdone hopen
    have hgone : Storage.Find (Manager.Destroy env manager w consumerID sessionID).2 sessionID
        = none := by
      rw [hD]
      exact mapGet_mapDelete_self _ _
    refine ⟨s, c, hfound, hdone, hopen, hgone, ?_, ?_, ?_⟩
    · rw [hD]
      simp only [closes_append, hextra, List.append_nil]
      rfl
    · rw [hD]
      exact List.mem_cons_self _ _
    · intro consumer2
      generalize (Manager.Destroy env manager w consumerID sessionID).2 = w1 at hgone ⊢
      simp [Manager.Destroy, hgone]
  · intro calls w h
    obtain ⟨w2, hrun, hs⟩ := runCalls_sound env manager calls w h
    have hnd : (closes w2.trace).Nodup := by
      rw [hs.2.2.2.1]
      exact List.nodup_reverse.mpr hs.2.2.2.2
    exact ⟨w2, hrun, hs, hnd, fun c => List.nodup_iff_count_le_one.mp hnd c⟩

theorem Manager_Destroy_closes_once_sample :
    runCalls sampleEnv sampleManager
      [Call.Create ⟨"bob"⟩ ⟨"issuer"⟩ 7 none "rc", Call.Destroy ⟨"bob"⟩ "first",
        Call.Destroy ⟨"bob"⟩ "first"] World.fresh
      = some { sessionStorage := [],
               trace := [Event.generateID, Event.timeNow,
                 Event.balanceTrackerFactory ⟨"bob"⟩ ⟨"0xProvider"⟩ ⟨"issuer"⟩,
                 Event.natPingerChan "rc", Event.close ⟨0⟩],
               tasks := [Task.stopOnDone (some ⟨0⟩) ⟨2⟩, Task.runTracker ⟨2⟩ ⟨"bob"⟩ "first"],
               chans := 1, closed := [⟨0⟩] } ∧
    World.fresh.Sound :=
  ⟨by decide, (Manager_Destroy_closes_once sampleEnv sampleManager).2.1⟩

end session

namespace traversal

/-- C16 fails on the code: whenever dialling the local service port fails, `handOff` still
starts both relay goroutines, with the `nil` connection; and each of them, whenever it runs,
panics at `defer proxyConn.Close()` after no read and no write, the deferred close of the
incoming connection being the only call it makes. -/
theorem NATProxy_handOff_dial_failed (env : Env) (np : NATProxy) (incomingConn : UDPConn)
    (w : World) (err : GoError) (h : (np.getConnection env w).1.2 = some err) :
    (np.getConnection env w).1.1 = none ∧
    (np.handOff env incomingConn w).tasks
      = w.tasks ++
        [{ direction := Direction.fromClient, incomingConn := incomingConn, proxyConn := none },
         { direction := Direction.toClient, incomingConn := incomingConn, proxyConn := none }] ∧
    (np.handOff env incomingConn w).tasks ≠ w.tasks ∧
    (∀ (r : Relay), r ∈ (np.handOff env incomingConn w).tasks → r ∉ w.tasks →
      ∀ (fuel : Nat) (w1 : World),
        Relay.run env fuel r w1
          = some (Ending.panicked,
              { w1 with trace := w1.trace ++ [Event.close incomingConn] })) := by
  have hconn : (np.getConnection env w).1.1 = none ∧ (np.getConnection env w).2.tasks = w.tasks := by
    cases hres : env.resolveUDPAddr w.trace "udp4" (localAddress np.servicePort) with
    | error e1 => simp [NATProxy.getConnection, hres, World.emit]
    | ok addr =>
      cases hdial : env.dialUDP
          (w.trace ++ [Event.resolveUDPAddr "udp4" (localAddress np.servicePort)]) "udp"
          addr with
      | error e2 => simp [NATProxy.getConnection, hres, hdial, World.emit]
      | ok conn => simp [NATProxy.getConnection, hres, hdial, World.emit] at h
  have htasks : (np.handOff env incomingConn w).tasks
      = w.tasks ++
        [{ direction := Direction.fromClient, incomingConn := incomingConn, proxyConn := none },
         { direction := Direction.toClient, incomingConn := incomingConn, proxyConn := none }] := by
    simp [NATProxy.handOff, hconn.1, hconn.2]
  refine ⟨hconn.1, htasks, ?_, ?_⟩
  · rw [htasks]
    intro hsame
    have := congrArg List.length hsame
    simp at this
  · intro r hr hnew fuel w1
    rw [htasks] at hr
    simp only [List.mem_append, List.mem_cons, List.mem_singleton, List.not_mem_nil,
      or_false] at hr
    rcases hr with hr | hr | hr
    · exact absurd hr hnew
    · subst hr
      simp [Relay.run, World.emit]
    · subst hr
      simp [Relay.run, World.emit]

theorem NATProxy_handOff_dial_failed_witness :
    ((⟨70000⟩ : NATProxy).getConnection sampleEnv sampleWorld).1.2
      = some ⟨"address 127.0.0.1:70000: invalid port"⟩ ∧
    ((⟨70000⟩ : NATProxy).handOff sampleEnv ⟨5⟩ sampleWorld).tasks
      = [{ direction := Direction.fromClient, incomingConn := ⟨5⟩, proxyConn := none },
         { direction := Direction.toClient, incomingConn := ⟨5⟩, proxyConn := none }] ∧
    ((⟨70000⟩ : NATProxy).handOff sampleEnv ⟨5⟩ sampleWorld).tasks ≠ sampleWorld.tasks ∧
    Relay.run sampleEnv 0
        { direction := Direction.toClient, incomingConn := ⟨5⟩, proxyConn := none }
        ((⟨70000⟩ : NATProxy).handOff sampleEnv ⟨5⟩ sampleWorld)
      = some (Ending.panicked,
          { trace := [Event.resolveUDPAddr "udp4" "127.0.0.1:70000", Event.close ⟨5⟩],
            tasks := [{ direction := Direction.fromClient, incomingConn := ⟨5⟩,
                        proxyConn := none },
                      { direction := Direction.toClient, incomingConn := ⟨5⟩,
                        proxyConn := none }] }) ∧
    Relay.run sampleEnv 3
        { direction := Direction.fromClient, incomingConn := ⟨5⟩, proxyConn := some ⟨1⟩ }
        sampleWorld
      = some (Ending.returned,
          { trace := [Event.read ⟨5⟩, Event.write ⟨1⟩ 3, Event.read ⟨5⟩, Event.write ⟨1⟩ 3,
                      Event.read ⟨5⟩, Event.close ⟨1⟩, Event.close ⟨5⟩],
            tasks := [] }) :=
  have h := NATProxy_handOff_dial_failed sampleEnv ⟨70000⟩ ⟨5⟩ sampleWorld
    ⟨"address 127.0.0.1:70000: invalid port"⟩ (by decide)
  ⟨by decide, h.2.1, h.2.2.1,
    h.2.2.2 { direction := Direction.toClient, incomingConn := ⟨5⟩, proxyConn := none }
      (by decide) (by decide) 0 _,
    by decide⟩

end traversal

end node
